import Mathlib

/-!
Verification of the glyph-triage / dual-layer converter
(`src/core/simple_converter.py`, class `SimplePDFConverter`).

The Python code is shallowly embedded: text is `List Char`, geometry is `ℚ`,
pixel images are total functions on `ℤ × ℤ`, fallible dictionary indexing is
`Except`/`Option`.  Python `str.strip`/`str.split` whitespace handling,
truncating `int()`, floor `//`, and banker's `round()` are modelled explicitly.
-/

namespace Pdf2Html

/-! ## Python string primitives -/

/-- Whitespace set used by Python `str.strip` / `str.split` (ASCII part). -/
def pyIsSpace (c : Char) : Bool :=
  c = ' ' || c = '\t' || c = '\n' || c = '\r' || c = '\x0b' || c = '\x0c'

/-- Python `str.strip()`. -/
def pyStrip (s : List Char) : List Char :=
  ((s.dropWhile pyIsSpace).reverse.dropWhile pyIsSpace).reverse

/-- Accumulator worker for `pySplitWS`; `acc` holds the current token reversed. -/
def splitWSAux : List Char → List Char → List (List Char)
  | [], acc => if acc = [] then [] else [acc.reverse]
  | c :: rest, acc =>
    if pyIsSpace c then
      if acc = [] then splitWSAux rest [] else acc.reverse :: splitWSAux rest []
    else splitWSAux rest (c :: acc)

/-- Python `str.split()` with no argument: split on whitespace runs, dropping
empty tokens. -/
def pySplitWS (s : List Char) : List (List Char) :=
  splitWSAux s []

/-- The spacer token `NBSP_TOKEN = "__NBSP__"` from the source. -/
def nbspToken : List Char := ['_', '_', 'N', 'B', 'S', 'P', '_', '_']

/-- Python `text.replace(NBSP_TOKEN, " ")`: every occurrence of the 8-char
spacer token becomes a single space (left-to-right, non-overlapping scan). -/
def replaceNBSP : List Char → List Char
  | '_' :: '_' :: 'N' :: 'B' :: 'S' :: 'P' :: '_' :: '_' :: rest => ' ' :: replaceNBSP rest
  | c :: rest => c :: replaceNBSP rest
  | [] => []

def isAsciiUpper (c : Char) : Bool := 65 ≤ c.toNat && c.toNat ≤ 90

def isAsciiLower (c : Char) : Bool := 97 ≤ c.toNat && c.toNat ≤ 122

def isAsciiAlpha (c : Char) : Bool := isAsciiUpper c || isAsciiLower c

/-- Token matching the regex `re.fullmatch(r"[A-Za-z]", t)`: exactly one ASCII
letter. -/
def isLetterToken : List Char → Bool
  | [c] => isAsciiAlpha c
  | _ => false

/-- Python `str.islower()` restricted to the ASCII universe this code feeds it
(at least one cased character, and no uppercase one). -/
def pyIsLower (s : List Char) : Bool :=
  s.any isAsciiAlpha && s.all (fun c => !isAsciiUpper c)

def isRomanLowerChar (c : Char) : Bool :=
  c = 'i' || c = 'v' || c = 'x' || c = 'l' || c = 'c' || c = 'd' || c = 'm'

def isRomanAnyChar (c : Char) : Bool :=
  isRomanLowerChar c || c = 'I' || c = 'V' || c = 'X' || c = 'L' || c = 'C'
    || c = 'D' || c = 'M'

/-- The regex `re.fullmatch(r"[ivxlcdm]+\.", s)`: one or more lowercase roman
letters followed by a period. -/
def isRomanLowerMarker (s : List Char) : Bool :=
  match s.getLast? with
  | some '.' => s.dropLast ≠ [] && (s.dropLast).all isRomanLowerChar
  | _ => false

/-- The regex `re.fullmatch(r"[ivxlcdmIVXLCDM]+\.", s)` used by the title
detector. -/
def isRomanAnyMarker (s : List Char) : Bool :=
  match s.getLast? with
  | some '.' => s.dropLast ≠ [] && (s.dropLast).all isRomanAnyChar
  | _ => false

/-- Python `re.sub(r"\s+", "", s)`: remove all whitespace. -/
def removeAllWS (s : List Char) : List Char :=
  s.filter (fun c => !pyIsSpace c)

/-! ## `_span_caps_flags` (source lines 402-420) -/

/-- Embedding of `SimplePDFConverter._span_caps_flags`.  Returns
`(force_uppercase, apply_small_caps, is_letter_spaced)`. -/
def spanCapsFlags (text : List Char) : Bool × Bool × Bool :=
  let normalized := replaceNBSP text
  let stripped := pyStrip normalized
  if stripped = [] then (false, false, false)
  else
    let tokens := pySplitWS stripped
    let letterTokens := tokens.filter isLetterToken
    let base : Bool :=
      decide (4 ≤ tokens.length) &&
      decide ((7 / 10 : ℚ) ≤ (letterTokens.length : ℚ) / (tokens.length : ℚ)) &&
      letterTokens.any pyIsLower
    let romanCand := removeAllWS stripped
    (base || isRomanLowerMarker romanCand, base, base)

theorem pySplitWS_nil : pySplitWS [] = [] := rfl

theorem isAsciiUpper_false_of_lower {c : Char} (h : isAsciiLower c = true) :
    isAsciiUpper c = false := by
  simp only [isAsciiLower, Bool.and_eq_true, decide_eq_true_eq] at h
  simp only [isAsciiUpper, Bool.and_eq_false_iff]
  right
  simpa using by omega

/-- C4: for every span text whose whitespace-delimited (spacer-normalized,
stripped) token list has at least 4 tokens, at least 70% of them single ASCII
letters, and at least one of those single-letter tokens lowercase, the flag
computation returns `force_uppercase = apply_small_caps = is_letter_spaced =
true`. -/
theorem c4_caps_flags (text : List Char)
    (h4 : 4 ≤ (pySplitWS (pyStrip (replaceNBSP text))).length)
    (hratio : (7 / 10 : ℚ) ≤
      (((pySplitWS (pyStrip (replaceNBSP text))).filter isLetterToken).length : ℚ) /
        ((pySplitWS (pyStrip (replaceNBSP text))).length : ℚ))
    (hlow : ∃ c : Char, isAsciiLower c = true ∧
      [c] ∈ pySplitWS (pyStrip (replaceNBSP text))) :
    spanCapsFlags text = (true, true, true) := by
  have hne : pyStrip (replaceNBSP text) ≠ [] := by
    intro h
    rw [h, pySplitWS_nil] at h4
    simp at h4
  unfold spanCapsFlags
  rw [if_neg hne]
  have hany : ((pySplitWS (pyStrip (replaceNBSP text))).filter isLetterToken).any
      pyIsLower = true := by
    obtain ⟨c, hc, hmem⟩ := hlow
    have halpha : isAsciiAlpha c = true := by
      simp [isAsciiAlpha, hc]
    have hmem' : [c] ∈ (pySplitWS (pyStrip (replaceNBSP text))).filter isLetterToken := by
      refine List.mem_filter.mpr ⟨hmem, ?_⟩
      simp [isLetterToken, halpha]
    refine List.any_eq_true.mpr ⟨[c], hmem', ?_⟩
    simp [pyIsLower, halpha, isAsciiUpper_false_of_lower hc]
  simp only [hany, decide_eq_true (by exact h4), decide_eq_true (by exact hratio),
    Bool.and_self, Bool.and_true, Bool.true_and, Bool.true_or]

/-- Concrete span text `"a b C d"` used by the C4 witness. -/
def c4Text : List Char := ['a', ' ', 'b', ' ', 'C', ' ', 'd']

/-- Witness for C4 at the concrete span text `"a b C d"`. -/
theorem c4_caps_flags_witness :
    (4 ≤ (pySplitWS (pyStrip (replaceNBSP c4Text))).length) ∧
    spanCapsFlags c4Text = (true, true, true) := by
  refine ⟨by decide, c4_caps_flags _ (by decide) ?_ ⟨'a', by decide, by decide⟩⟩
  have h1 : ((pySplitWS (pyStrip (replaceNBSP c4Text))).filter isLetterToken).length = 4 := by
    decide
  have h2 : (pySplitWS (pyStrip (replaceNBSP c4Text))).length = 4 := by decide
  rw [h1, h2]
  norm_num

/-! ## Geometry and record types -/

/-- A PDF-space rectangle `(x0, y0, x1, y1)`. -/
structure BBox where
  x0 : ℚ
  y0 : ℚ
  x1 : ℚ
  y1 : ℚ
deriving DecidableEq, Repr

/-- One character record from the rawdict feed: key `"c"` (a string) and an
optional `"bbox"`. -/
structure CharRec where
  c : List Char
  bbox : Option BBox
deriving DecidableEq, Repr

/-- One span record from the rawdict feed.  Fields read through `.get` with a
default are `Option`s (or default to `[]` for text/char lists, matching the
`""`/`[]` defaults in the source). -/
structure SpanRec where
  text : List Char := []
  chars : List CharRec := []
  size : Option ℚ := none
  font : Option (List Char) := none
  color : Option ℕ := none
  bbox : Option BBox := none
deriving DecidableEq, Repr

/-- One raw line record: optional `"bbox"` plus its spans. -/
structure RawLine where
  bbox : Option BBox := none
  spans : List SpanRec := []
deriving DecidableEq, Repr

/-! ## `_is_title_line` (source lines 650-675) -/

/-- Python `"".join(ch.get("c", "") for ch in chars)`. -/
def joinCharTexts (chars : List CharRec) : List Char :=
  (chars.map (·.c)).flatten

/-- The `" ".join(parts)` text the title detector assembles from a line: per
span the joined character texts when character records exist, else the span
text when non-empty. -/
def lineTitleText (line : RawLine) : List Char :=
  let parts := line.spans.foldr
    (fun s acc =>
      if s.chars ≠ [] then joinCharTexts s.chars :: acc
      else if s.text ≠ [] then s.text :: acc
      else acc) []
  (parts.intersperse [' ']).flatten

/-- Embedding of `SimplePDFConverter._is_title_line`. -/
def isTitleLine (line : RawLine) : Bool :=
  if line.spans = [] then false
  else
    let stripped := pyStrip (replaceNBSP (lineTitleText line))
    if stripped = [] then false
    else
      let tokens := pySplitWS stripped
      let letterTokens := tokens.filter isLetterToken
      if 2 ≤ tokens.length ∧ letterTokens ≠ [] ∧
          (7 / 10 : ℚ) ≤ (letterTokens.length : ℚ) / (tokens.length : ℚ) then true
      else isRomanAnyMarker (removeAllWS stripped)

/-- Amended specification predicate for the title-candidate classifier: the
non-blank line is a title candidate iff (≥2 tokens and ≥70% of them single
ASCII letters) OR the whitespace-stripped line matches the roman-numeral
marker pattern — the roman branch without any token-count requirement. -/
def isTitleLineSpec (line : RawLine) : Bool :=
  let stripped := pyStrip (replaceNBSP (lineTitleText line))
  let tokens := pySplitWS stripped
  let letterTokens := tokens.filter isLetterToken
  decide (stripped ≠ []) &&
    ((decide (2 ≤ tokens.length) &&
      decide ((7 / 10 : ℚ) ≤ (letterTokens.length : ℚ) / (tokens.length : ℚ))) ||
     isRomanAnyMarker (removeAllWS stripped))

theorem lineTitleText_nil_spans (line : RawLine) (h : line.spans = []) :
    lineTitleText line = [] := by
  simp [lineTitleText, h]

/-- Ratio of single-letter tokens is zero when there are none. -/
theorem letter_ratio_zero {tokens : List (List Char)}
    (h : tokens.filter isLetterToken = []) :
    ((tokens.filter isLetterToken).length : ℚ) / (tokens.length : ℚ) = 0 := by
  rw [h]
  simp

/-- C5 (amended): the title-candidate classifier returns true iff the line text
is non-blank and either (a) it has ≥2 whitespace tokens of which ≥70% are
single ASCII letters, or (b) the whitespace-stripped text matches the
roman-numeral marker pattern — branch (b) independently of the token count. -/
theorem c5_title_line (line : RawLine) : isTitleLine line = isTitleLineSpec line := by
  unfold isTitleLine isTitleLineSpec
  by_cases hs : line.spans = []
  · have heq : pyStrip (replaceNBSP (lineTitleText line)) = [] := by
      rw [lineTitleText_nil_spans line hs]
      rfl
    rw [if_pos hs, heq]
    simp
  · rw [if_neg hs]
    generalize pyStrip (replaceNBSP (lineTitleText line)) = T
    by_cases hst : T = []
    · simp [hst]
    · rw [if_neg hst]
      simp only [hst, ne_eq, not_false_eq_true, decide_True, Bool.true_and]
      generalize pySplitWS T = tokens
      by_cases h2 : 2 ≤ tokens.length
      · by_cases hr : (7 / 10 : ℚ) ≤
            ((tokens.filter isLetterToken).length : ℚ) / (tokens.length : ℚ)
        · have hlt : tokens.filter isLetterToken ≠ [] := by
            intro h
            rw [letter_ratio_zero h] at hr
            norm_num at hr
          rw [if_pos ⟨h2, hlt, hr⟩]
          simp [h2, hr]
        · rw [if_neg (by rintro ⟨_, _, hc⟩; exact hr hc)]
          simp [hr]
      · rw [if_neg (by rintro ⟨hc, _, _⟩; exact h2 hc)]
        simp [h2]

/-- A single-span line whose text is the lone token `"iv."`. -/
def c5Line : RawLine :=
  { bbox := none, spans := [{ text := ['i', 'v', '.'] }] }

/-- Counterexample to C5 as stated: the line `"iv."` has only one
whitespace-delimited token (the claim demands ≥2 tokens for a title candidate),
yet the classifier returns true through the roman-numeral branch. -/
theorem c5_claim_false :
    isTitleLine c5Line = true ∧
    (pySplitWS (pyStrip (replaceNBSP (lineTitleText c5Line)))).length = 1 := by
  constructor
  · decide
  · decide

/-! ## `_is_dropcap_candidate` (source lines 604-628) -/

/-- Whether `pat` occurs at the head of `hay`. -/
def beginsWith : List Char → List Char → Bool
  | _, [] => true
  | [], _ :: _ => false
  | a :: as, b :: bs => a = b && beginsWith as bs

/-- Python `pat in hay` substring containment. -/
def hasSub (hay pat : List Char) : Bool :=
  match hay with
  | [] => pat = []
  | _ :: rest => beginsWith hay pat || hasSub rest pat

/-- The decorative font-name hint set `("drop", "decor", "orn", "init", "swash")`. -/
def dropcapHints : List (List Char) :=
  [['d', 'r', 'o', 'p'], ['d', 'e', 'c', 'o', 'r'], ['o', 'r', 'n'],
   ['i', 'n', 'i', 't'], ['s', 'w', 'a', 's', 'h']]

/-- Embedding of `SimplePDFConverter._is_dropcap_candidate`.  The Python falsy
guard `not text or not bbox or not median_font_size` becomes emptiness /
`none` / zero tests. -/
def isDropcapCandidate (text : List Char) (fontSize : ℚ) (bbox : Option BBox)
    (medianFontSize : ℚ) (fontName : List Char) (blockBBox : Option BBox) : Bool :=
  match bbox with
  | none => false
  | some bb =>
    if text = [] ∨ medianFontSize = 0 then false
    else if (pyStrip (replaceNBSP text)).length ≠ 1 then false
    else if fontSize < medianFontSize * (12 / 5) then false
    else if max 0 (bb.x1 - bb.x0) = 0 ∨ max 0 (bb.y1 - bb.y0) = 0 then false
    else if (match blockBBox with
        | some blk => decide (blk.x0 + medianFontSize * (1 / 2) < bb.x0)
        | none => false) = true then false
    else if ¬ (dropcapHints.any (fun k => hasSub (fontName.map Char.toLower) k) = true) ∧
        ¬ ((3 / 5 : ℚ) ≤ max 0 (bb.x1 - bb.x0) / max 0 (bb.y1 - bb.y0) ∧
           max 0 (bb.x1 - bb.x0) / max 0 (bb.y1 - bb.y0) ≤ (7 / 5 : ℚ)) then false
    else if max 0 (bb.y1 - bb.y0) < medianFontSize * 2 then false
    else true

/-- Amended specification predicate for the drop-cap classifier, as a plain
conjunction: bbox present, nonzero median, exactly one normalized character,
size ≥ 2.4×median, positive width and height, height ≥ 2×median, the left edge
at most 0.5×median to the RIGHT of the block's left edge (no constraint when
the block bbox is absent, and arbitrarily far to the left is allowed), and
decorative-name hint or aspect ratio within [0.6, 1.4]. -/
def isDropcapSpec (text : List Char) (fontSize : ℚ) (bbox : Option BBox)
    (medianFontSize : ℚ) (fontName : List Char) (blockBBox : Option BBox) : Prop :=
  ∃ bb, bbox = some bb ∧
    medianFontSize ≠ 0 ∧
    (pyStrip (replaceNBSP text)).length = 1 ∧
    medianFontSize * (12 / 5) ≤ fontSize ∧
    0 < max 0 (bb.x1 - bb.x0) ∧
    0 < max 0 (bb.y1 - bb.y0) ∧
    medianFontSize * 2 ≤ max 0 (bb.y1 - bb.y0) ∧
    (∀ blk, blockBBox = some blk → bb.x0 ≤ blk.x0 + medianFontSize * (1 / 2)) ∧
    (dropcapHints.any (fun k => hasSub (fontName.map Char.toLower) k) = true ∨
      ((3 / 5 : ℚ) ≤ max 0 (bb.x1 - bb.x0) / max 0 (bb.y1 - bb.y0) ∧
        max 0 (bb.x1 - bb.x0) / max 0 (bb.y1 - bb.y0) ≤ (7 / 5 : ℚ)))

/-- C3 (amended): `dropcap_candidate` holds iff the conditions of
`isDropcapSpec` all hold; compared to the claim as stated, the left-edge test
is one-sided (only `x0 ≤ block.x0 + 0.5×median` is required, a left edge far to
the LEFT of the block still qualifies), it is skipped when the block has no
bbox, and the bbox must have positive width and height. -/
theorem c3_dropcap (text : List Char) (fontSize : ℚ) (bbox : Option BBox)
    (medianFontSize : ℚ) (fontName : List Char) (blockBBox : Option BBox) :
    isDropcapCandidate text fontSize bbox medianFontSize fontName blockBBox = true ↔
    isDropcapSpec text fontSize bbox medianFontSize fontName blockBBox := by
  unfold isDropcapCandidate isDropcapSpec
  match bbox with
  | none => simp
  | some bb =>
    simp only [Option.some.injEq]
    constructor
    · intro h
      refine ⟨bb, rfl, ?_⟩
      split_ifs at h with h1 h2 h3 h4 h5 h6 h7
      push_neg at h1 h2 h3 h4
      refine ⟨h1.2, h2, h3, ?_, ?_, not_lt.mp h7, ?_, ?_⟩
      · exact lt_of_le_of_ne (le_max_left _ _) (Ne.symm h4.1)
      · exact lt_of_le_of_ne (le_max_left _ _) (Ne.symm h4.2)
      · intro blk hblk
        rw [hblk] at h5
        simpa using not_lt.mp (by simpa using h5)
      · by_cases hf : dropcapHints.any (fun k => hasSub (fontName.map Char.toLower) k) = true
        · exact Or.inl hf
        · refine Or.inr ?_
          by_contra hc
          exact h6 ⟨hf, hc⟩
    · rintro ⟨bb', hbb', hm, h1c, hfs, hw, hh, hht, hblk, hor⟩
      cases hbb'
      have g1 : ¬ (text = [] ∨ medianFontSize = 0) := by
        rintro (hc | hc)
        · rw [hc] at h1c
          exact absurd h1c (by decide)
        · exact hm hc
      have g2 : ¬ ((pyStrip (replaceNBSP text)).length ≠ 1) := by simpa using h1c
      have g4 : ¬ (max 0 (bb.x1 - bb.x0) = 0 ∨ max 0 (bb.y1 - bb.y0) = 0) := by
        rintro (hc | hc)
        · exact absurd hc (ne_of_gt hw)
        · exact absurd hc (ne_of_gt hh)
      have g6 : ¬ (¬ (dropcapHints.any (fun k => hasSub (fontName.map Char.toLower) k) = true) ∧
          ¬ ((3 / 5 : ℚ) ≤ max 0 (bb.x1 - bb.x0) / max 0 (bb.y1 - bb.y0) ∧
             max 0 (bb.x1 - bb.x0) / max 0 (bb.y1 - bb.y0) ≤ (7 / 5 : ℚ))) := by
        rintro ⟨hf, hc⟩
        rcases hor with hor | hor
        · exact hf hor
        · exact hc hor
      cases blockBBox with
      | none =>
        rw [if_neg g1, if_neg g2, if_neg (not_lt.mpr hfs), if_neg g4,
          if_neg (by simp), if_neg g6, if_neg (not_lt.mpr hht)]
      | some blk =>
        rw [if_neg g1, if_neg g2, if_neg (not_lt.mpr hfs), if_neg g4,
          if_neg (by simpa using not_lt.mpr (hblk blk rfl)), if_neg g6,
          if_neg (not_lt.mpr hht)]

/-- Concrete counterexample input for C3: a single oversized glyph whose left
edge lies 100pt to the LEFT of its block's left edge. -/
def c3BBox : BBox := ⟨0, 0, 25, 25⟩

def c3BlockBBox : BBox := ⟨100, 0, 200, 50⟩

/-- Counterexample to C3 as stated: with page median 10, a one-character span
of size 30 with bbox (0,0,25,25) inside a block whose left edge is at x=100 is
NOT "within 0.5×median of the owning block's left edge" (|0−100| = 100 > 5),
yet the classifier returns true, refuting the claimed iff. -/
theorem c3_claim_false :
    isDropcapCandidate ['A'] 30 (some c3BBox) 10 ['F'] (some c3BlockBBox) = true ∧
    ¬ (|c3BBox.x0 - c3BlockBBox.x0| ≤ 10 * (1 / 2 : ℚ)) := by
  constructor
  · rw [c3_dropcap]
    refine ⟨c3BBox, rfl, by norm_num, by decide, by norm_num [c3BBox], ?_, ?_, ?_, ?_, ?_⟩
    · show (0 : ℚ) < max 0 (25 - 0)
      norm_num
    · show (0 : ℚ) < max 0 (25 - 0)
      norm_num
    · show (10 : ℚ) * 2 ≤ max 0 (25 - 0)
      norm_num
    · rintro blk hblk
      cases hblk
      show (0 : ℚ) ≤ 100 + 10 * (1 / 2)
      norm_num
    · refine Or.inr ?_
      constructor
      · show (3 / 5 : ℚ) ≤ max 0 (25 - 0) / max 0 (25 - 0)
        norm_num
      · show max 0 ((25 : ℚ) - 0) / max 0 (25 - 0) ≤ (7 / 5 : ℚ)
        norm_num
  · show ¬ (|(0 : ℚ) - 100| ≤ 10 * (1 / 2 : ℚ))
    rw [not_le]
    rw [show |(0 : ℚ) - 100| = 100 by rw [abs_of_nonpos] <;> norm_num]
    norm_num

/-! ## `_rebuild_text_with_spacing` (source lines 710-777) -/

/-- Insertion into a sorted list of rationals. -/
def insertQ (x : ℚ) : List ℚ → List ℚ
  | [] => [x]
  | y :: ys => if x ≤ y then x :: y :: ys else y :: insertQ x ys

/-- Ascending sort of rationals (same value list as Python `sorted`). -/
def sortQ : List ℚ → List ℚ
  | [] => []
  | x :: xs => insertQ x (sortQ xs)

/-- Python `sorted(l)[len(sorted(l)) // 2]`: the upper median the source uses
everywhere. -/
def medianUpper (l : List ℚ) : ℚ :=
  (sortQ l).getD ((sortQ l).length / 2) 0

/-- Python `round()` on rationals: round half to even (banker's rounding). -/
def pyRound (q : ℚ) : ℤ :=
  if q - ⌊q⌋ < 1 / 2 then ⌊q⌋
  else if 1 / 2 < q - ⌊q⌋ then ⌊q⌋ + 1
  else if ⌊q⌋ % 2 = 0 then ⌊q⌋ else ⌊q⌋ + 1

/-- Horizontal gap `next.bbox.x0 - current.bbox.x1` when both records carry a
bbox. -/
def charGap (a b : CharRec) : Option ℚ :=
  match a.bbox, b.bbox with
  | some ba, some bb => some (bb.x0 - ba.x1)
  | _, _ => none

/-- The strictly positive consecutive gaps the synthesis collects (pairs with a
missing bbox are skipped). -/
def collectPositiveGaps : List CharRec → List ℚ
  | a :: b :: rest =>
    (match charGap a b with
     | some g =>
       if 0 < g then g :: collectPositiveGaps (b :: rest) else collectPositiveGaps (b :: rest)
     | none => collectPositiveGaps (b :: rest))
  | _ => []

/-- Spacer length for the letter-spaced path: `max(2, min(6,
int(round(gap/unit))))` with `unit = max(font_size*0.3, 1.0)`. -/
def lsSpacerCount (fontSize gap : ℚ) : ℤ :=
  max 2 (min 6 (pyRound (gap / max (fontSize * (3 / 10)) 1)))

/-- `NBSP_TOKEN * n`. -/
def nbspRepeat (n : ℤ) : List Char :=
  (List.replicate n.toNat nbspToken).flatten

/-- Inserted segment between two adjacent records, letter-spaced path. -/
def insertSegLS (fontSize thr : ℚ) (a b : CharRec) : List Char :=
  match charGap a b with
  | some g => if thr < g ∧ b.c ≠ [' '] then nbspRepeat (lsSpacerCount fontSize g) else []
  | none => []

/-- Inserted segment between two adjacent records, non-letter-spaced path. -/
def insertSegNL (thr : ℚ) (a b : CharRec) : List Char :=
  match charGap a b with
  | some g => if thr < g ∧ b.c ≠ [' '] then [' '] else []
  | none => []

/-- The rebuild loop: every record's text, with `f`'s segment spliced between
each adjacent pair (the source appends the final character after its loop). -/
def pairSegs (f : CharRec → CharRec → List Char) : List CharRec → List Char
  | [] => []
  | [a] => a.c
  | a :: b :: rest => a.c ++ f a b ++ pairSegs f (b :: rest)

/-- Embedding of `SimplePDFConverter._rebuild_text_with_spacing`.  The source
returns `""` (here `[]`) when the synthesis is skipped: fewer than two
characters, no positive gaps, or (non-letter-spaced) median gap ≤ 0.5. -/
def rebuildTextWithSpacing (chars : List CharRec) (fontSize : ℚ)
    (isLetterSpaced : Bool) : List Char :=
  if chars.length < 2 then []
  else if isLetterSpaced then
    if collectPositiveGaps chars = [] then []
    else
      pairSegs
        (insertSegLS fontSize
          (max (fontSize * (3 / 5)) (medianUpper (collectPositiveGaps chars) * 4))) chars
  else
    if collectPositiveGaps chars = [] then []
    else if medianUpper (collectPositiveGaps chars) ≤ 1 / 2 then []
    else
      pairSegs
        (insertSegNL
          (max (medianUpper (collectPositiveGaps chars) * 3) (fontSize * (2 / 5)))) chars

/-- Specification-side output for C6: between position `i` and `i+1` exactly
one space appears iff the gap exceeds the threshold and the next character is
not already a space. -/
def c6SpecOut (thr : ℚ) (chars : List CharRec) : List Char :=
  ((chars.zip chars.tail).map (fun p =>
      p.1.c ++ (if thr < (charGap p.1 p.2).getD 0 ∧ p.2.c ≠ [' '] then [' '] else []))).flatten
    ++ ((chars.getLast?.map (·.c)).getD [])

theorem c6SpecOut_nil (thr : ℚ) : c6SpecOut thr [] = [] := rfl

theorem c6SpecOut_single (thr : ℚ) (a : CharRec) : c6SpecOut thr [a] = a.c := by
  simp [c6SpecOut]

theorem c6SpecOut_cons_cons (thr : ℚ) (a b : CharRec) (rest : List CharRec) :
    c6SpecOut thr (a :: b :: rest) =
      a.c ++ (if thr < (charGap a b).getD 0 ∧ b.c ≠ [' '] then [' '] else [])
        ++ c6SpecOut thr (b :: rest) := by
  simp [c6SpecOut, List.getLast?_cons_cons, List.append_assoc]

theorem pairSegs_insertNL_eq (thr : ℚ) :
    ∀ chars : List CharRec, (∀ cr ∈ chars, cr.bbox.isSome = true) →
      pairSegs (insertSegNL thr) chars = c6SpecOut thr chars
  | [], _ => rfl
  | [a], _ => by rw [c6SpecOut_single]; rfl
  | a :: b :: rest, h => by
    obtain ⟨ba, hba⟩ := Option.isSome_iff_exists.mp (h a (by simp))
    obtain ⟨bb, hbb⟩ := Option.isSome_iff_exists.mp (h b (by simp))
    have hgap : charGap a b = some (bb.x0 - ba.x1) := by
      simp [charGap, hba, hbb]
    have ih := pairSegs_insertNL_eq thr (b :: rest) (fun cr hcr => h cr (by simp [hcr]))
    rw [c6SpecOut_cons_cons]
    show a.c ++ insertSegNL thr a b ++ pairSegs (insertSegNL thr) (b :: rest) = _
    rw [ih, insertSegNL, hgap]
    simp

/-- C6: in the non-letter-spaced path, when every record carries a bbox and a
positive gap exists, the synthesis is skipped entirely when the (upper) median
of positive gaps is ≤ 0.5, and otherwise, with threshold `max(median*3,
font_size*0.4)`, the output interleaves exactly one space after character `i`
iff the gap to character `i+1` exceeds the threshold and character `i+1` is not
already a space. -/
theorem c6_spacing_nonletter (chars : List CharRec) (fs : ℚ)
    (hlen : 2 ≤ chars.length)
    (hbb : ∀ cr ∈ chars, cr.bbox.isSome = true)
    (hg : collectPositiveGaps chars ≠ []) :
    (medianUpper (collectPositiveGaps chars) ≤ 1 / 2 →
      rebuildTextWithSpacing chars fs false = []) ∧
    (1 / 2 < medianUpper (collectPositiveGaps chars) →
      rebuildTextWithSpacing chars fs false =
        c6SpecOut (max (medianUpper (collectPositiveGaps chars) * 3) (fs * (2 / 5))) chars) := by
  constructor
  · intro hm
    unfold rebuildTextWithSpacing
    rw [if_neg (by omega)]
    simp only [Bool.false_eq_true, if_false]
    rw [if_neg hg, if_pos hm]
  · intro hm
    unfold rebuildTextWithSpacing
    rw [if_neg (by omega)]
    simp only [Bool.false_eq_true, if_false]
    rw [if_neg hg, if_neg (not_le.mpr hm)]
    exact pairSegs_insertNL_eq _ chars hbb

/-- Concrete character row used by the C6 witness: gaps 1, 1, 10 at font size
1, so threshold = 3 and exactly one space is synthesized before the last
character. -/
def c6Chars : List CharRec :=
  [⟨['a'], some ⟨0, 0, 1, 10⟩⟩, ⟨['b'], some ⟨2, 0, 3, 10⟩⟩,
   ⟨['c'], some ⟨4, 0, 5, 10⟩⟩, ⟨['d'], some ⟨15, 0, 16, 10⟩⟩]

/-- Witness for C6 at `c6Chars`. -/
theorem c6_spacing_nonletter_witness :
    (1 / 2 : ℚ) < medianUpper (collectPositiveGaps c6Chars) ∧
    rebuildTextWithSpacing c6Chars 1 false =
      c6SpecOut (max (medianUpper (collectPositiveGaps c6Chars) * 3) (1 * (2 / 5))) c6Chars := by
  have hm : (1 / 2 : ℚ) < medianUpper (collectPositiveGaps c6Chars) := by
    norm_num [c6Chars, collectPositiveGaps, charGap, medianUpper, sortQ, insertQ]
  refine ⟨hm, (c6_spacing_nonletter c6Chars 1 (by decide) (by decide) ?_).2 hm⟩
  have hx : collectPositiveGaps c6Chars = [1, 1, 10] := by
    norm_num [c6Chars, collectPositiveGaps, charGap]
  rw [hx]
  simp

/-! ## C7: re-running the spacing synthesis on its own output -/

/-- The segment the synthesis (either path) inserts between an adjacent pair
when run on `chars`; `[]` when the run is skipped. -/
def synthInsertSeg (chars : List CharRec) (fontSize : ℚ) (isLetterSpaced : Bool)
    (a b : CharRec) : List Char :=
  if chars.length < 2 then []
  else if isLetterSpaced then
    if collectPositiveGaps chars = [] then []
    else
      insertSegLS fontSize
        (max (fontSize * (3 / 5)) (medianUpper (collectPositiveGaps chars) * 4)) a b
  else
    if collectPositiveGaps chars = [] then []
    else if medianUpper (collectPositiveGaps chars) ≤ 1 / 2 then []
    else
      insertSegNL (max (medianUpper (collectPositiveGaps chars) * 3) (fontSize * (2 / 5))) a b

theorem pairSegs_congr (f g : CharRec → CharRec → List Char)
    (h : ∀ a b, f a b = g a b) : ∀ l, pairSegs f l = pairSegs g l
  | [] => rfl
  | [_] => rfl
  | a :: b :: rest => by
    show a.c ++ f a b ++ pairSegs f (b :: rest) = a.c ++ g a b ++ pairSegs g (b :: rest)
    rw [h, pairSegs_congr f g h (b :: rest)]

theorem synthInsertSeg_eq_LS (chars : List CharRec) (fs : ℚ)
    (h1 : ¬ chars.length < 2) (h2 : collectPositiveGaps chars ≠ []) (a b : CharRec) :
    synthInsertSeg chars fs true a b =
      insertSegLS fs (max (fs * (3 / 5)) (medianUpper (collectPositiveGaps chars) * 4)) a b := by
  unfold synthInsertSeg
  rw [if_neg h1, if_pos rfl, if_neg h2]

theorem synthInsertSeg_eq_NL (chars : List CharRec) (fs : ℚ)
    (h1 : ¬ chars.length < 2) (h2 : collectPositiveGaps chars ≠ [])
    (h3 : ¬ medianUpper (collectPositiveGaps chars) ≤ 1 / 2) (a b : CharRec) :
    synthInsertSeg chars fs false a b =
      insertSegNL (max (medianUpper (collectPositiveGaps chars) * 3) (fs * (2 / 5))) a b := by
  unfold synthInsertSeg
  rw [if_neg h1, if_neg (by simp), if_neg h2, if_neg h3]

theorem insertSegLS_nil_of (fs thr : ℚ) (a b : CharRec)
    (h : a.bbox = none ∨ b.bbox = none ∨ b.c = [' ']) : insertSegLS fs thr a b = [] := by
  rcases h with h | h | h
  · simp [insertSegLS, charGap, h]
  · cases ha : a.bbox <;> simp [insertSegLS, charGap, h, ha]
  · cases ha : a.bbox <;> cases hb : b.bbox <;> simp [insertSegLS, charGap, h, ha, hb]

theorem insertSegNL_nil_of (thr : ℚ) (a b : CharRec)
    (h : a.bbox = none ∨ b.bbox = none ∨ b.c = [' ']) : insertSegNL thr a b = [] := by
  rcases h with h | h | h
  · simp [insertSegNL, charGap, h]
  · cases ha : a.bbox <;> simp [insertSegNL, charGap, h, ha]
  · cases ha : a.bbox <;> cases hb : b.bbox <;> simp [insertSegNL, charGap, h, ha, hb]

/-- C7 (amended): the synthesis output is the interleaving of the per-pair
segments, and no segment is ever inserted at a pair whose records lack a bbox
or whose right member already is a space.  Since spaces synthesized by a first
run carry no bbox, a re-run on the output never doubles a synthesized space —
but full idempotence does NOT hold (see the counterexample): a re-run may
insert new spaces at other gaps because the median threshold is recomputed. -/
theorem c7_rerun_no_adjacent_insert (chars : List CharRec) (fs : ℚ) (ls : Bool) :
    (rebuildTextWithSpacing chars fs ls = [] ∨
     rebuildTextWithSpacing chars fs ls = pairSegs (synthInsertSeg chars fs ls) chars) ∧
    (∀ a b : CharRec, (a.bbox = none ∨ b.bbox = none ∨ b.c = [' ']) →
      synthInsertSeg chars fs ls a b = []) := by
  constructor
  · by_cases h1 : chars.length < 2
    · left
      unfold rebuildTextWithSpacing
      rw [if_pos h1]
    · cases ls with
      | true =>
        by_cases h2 : collectPositiveGaps chars = []
        · left
          unfold rebuildTextWithSpacing
          rw [if_neg h1, if_pos rfl, if_pos h2]
        · right
          unfold rebuildTextWithSpacing
          rw [if_neg h1, if_pos rfl, if_neg h2]
          exact pairSegs_congr _ _ (fun a b => (synthInsertSeg_eq_LS chars fs h1 h2 a b).symm)
            chars
      | false =>
        by_cases h2 : collectPositiveGaps chars = []
        · left
          unfold rebuildTextWithSpacing
          rw [if_neg h1, if_neg (by simp), if_pos h2]
        · by_cases h3 : medianUpper (collectPositiveGaps chars) ≤ 1 / 2
          · left
            unfold rebuildTextWithSpacing
            rw [if_neg h1, if_neg (by simp), if_neg h2, if_pos h3]
          · right
            unfold rebuildTextWithSpacing
            rw [if_neg h1, if_neg (by simp), if_neg h2, if_neg h3]
            exact pairSegs_congr _ _
              (fun a b => (synthInsertSeg_eq_NL chars fs h1 h2 h3 a b).symm) chars
  · intro a b h
    unfold synthInsertSeg
    split_ifs <;>
      first
      | rfl
      | exact insertSegLS_nil_of _ _ _ _ h
      | exact insertSegNL_nil_of _ _ _ h

/-- The first run's output re-materialized as character records: the original
records, with every synthesized character spliced in carrying no bbox (no
geometry exists for synthesized spaces/spacers). -/
def rerunAux (f : CharRec → CharRec → List Char) : List CharRec → List CharRec
  | [] => []
  | [a] => [a]
  | a :: b :: rest => a :: ((f a b).map (fun ch => ⟨[ch], none⟩)) ++ rerunAux f (b :: rest)

/-- Character-record list corresponding to the output of a first synthesis run
(unchanged when the run was skipped). -/
def rerunOf (chars : List CharRec) (fontSize : ℚ) (isLetterSpaced : Bool) : List CharRec :=
  if rebuildTextWithSpacing chars fontSize isLetterSpaced = [] then chars
  else rerunAux (synthInsertSeg chars fontSize isLetterSpaced) chars

def countSpaces (l : List Char) : ℕ := (l.filter (· = ' ')).length

/-- Characters a b c d e with consecutive gaps 1, 1, 10, 100 at font size 12:
the first run has median 10 and threshold 30, inserting one space before `e`
only; the re-run sees gaps 1, 1, 10 (pairs adjacent to the synthesized space
are skipped), median 1 and threshold 4.8, and inserts a second space before
`d`. -/
def c7Chars : List CharRec :=
  [⟨['a'], some ⟨0, 0, 5, 10⟩⟩, ⟨['b'], some ⟨6, 0, 11, 10⟩⟩, ⟨['c'], some ⟨12, 0, 17, 10⟩⟩,
   ⟨['d'], some ⟨27, 0, 32, 10⟩⟩, ⟨['e'], some ⟨132, 0, 137, 10⟩⟩]

/-- Witness for C7 at a pair whose left member is a synthesized (bbox-less)
space. -/
theorem c7_rerun_no_adjacent_insert_witness :
    synthInsertSeg c7Chars 12 false ⟨[' '], none⟩ ⟨['e'], some ⟨132, 0, 137, 10⟩⟩ = [] :=
  (c7_rerun_no_adjacent_insert c7Chars 12 false).2 _ _ (Or.inl rfl)

theorem rerunAux_congr (f g : CharRec → CharRec → List Char)
    (h : ∀ a b, f a b = g a b) : ∀ l, rerunAux f l = rerunAux g l
  | [] => rfl
  | [_] => rfl
  | a :: b :: rest => by
    show a :: ((f a b).map _) ++ rerunAux f (b :: rest)
        = a :: ((g a b).map _) ++ rerunAux g (b :: rest)
    rw [h, rerunAux_congr f g h (b :: rest)]

/-- Counterexample to C7 as stated: re-running the non-letter-spaced synthesis
on its own output inserts an additional space (1 space after the first run, 2
after re-running on the output), so the synthesis is not idempotent. -/
theorem c7_claim_false :
    countSpaces (rebuildTextWithSpacing c7Chars 12 false) = 1 ∧
    countSpaces (rebuildTextWithSpacing (rerunOf c7Chars 12 false) 12 false) = 2 := by
  have hg : collectPositiveGaps c7Chars = [1, 1, 10, 100] := by
    norm_num [c7Chars, collectPositiveGaps, charGap]
  have hm : medianUpper (collectPositiveGaps c7Chars) = 10 := by
    rw [hg]
    norm_num [medianUpper, sortQ, insertQ]
  have hthr1 : max ((10 : ℚ) * 3) (12 * (2 / 5)) = 30 := by
    rw [show (10 : ℚ) * 3 = 30 by norm_num, show (12 : ℚ) * (2 / 5) = 24 / 5 by norm_num]
    exact max_eq_left (by norm_num)
  have hrun1 : rebuildTextWithSpacing c7Chars 12 false = ['a', 'b', 'c', 'd', ' ', 'e'] := by
    unfold rebuildTextWithSpacing
    rw [if_neg (by decide), if_neg (by simp), if_neg (by rw [hg]; simp),
      if_neg (by rw [hm]; norm_num), hm, hthr1]
    norm_num [c7Chars, pairSegs, insertSegNL, charGap]
    decide
  have hseg : ∀ a b : CharRec, synthInsertSeg c7Chars 12 false a b = insertSegNL 30 a b := by
    intro a b
    rw [synthInsertSeg_eq_NL c7Chars 12 (by decide) (by rw [hg]; simp)
      (by rw [hm]; norm_num) a b, hm, hthr1]
  have hrerun : rerunOf c7Chars 12 false =
      [⟨['a'], some ⟨0, 0, 5, 10⟩⟩, ⟨['b'], some ⟨6, 0, 11, 10⟩⟩, ⟨['c'], some ⟨12, 0, 17, 10⟩⟩,
       ⟨['d'], some ⟨27, 0, 32, 10⟩⟩, ⟨[' '], none⟩, ⟨['e'], some ⟨132, 0, 137, 10⟩⟩] := by
    unfold rerunOf
    rw [if_neg (by rw [hrun1]; simp), rerunAux_congr _ _ hseg c7Chars]
    norm_num [c7Chars, rerunAux, insertSegNL, charGap]
    decide
  have hg2 : collectPositiveGaps (rerunOf c7Chars 12 false) = [1, 1, 10] := by
    rw [hrerun]
    norm_num [collectPositiveGaps, charGap]
  have hm2 : medianUpper (collectPositiveGaps (rerunOf c7Chars 12 false)) = 1 := by
    rw [hg2]
    norm_num [medianUpper, sortQ, insertQ]
  have hthr2 : max ((1 : ℚ) * 3) (12 * (2 / 5)) = 24 / 5 := by
    rw [show (1 : ℚ) * 3 = 3 by norm_num, show (12 : ℚ) * (2 / 5) = 24 / 5 by norm_num]
    exact max_eq_right (by norm_num)
  have hrun2 : rebuildTextWithSpacing (rerunOf c7Chars 12 false) 12 false
      = ['a', 'b', 'c', ' ', 'd', ' ', 'e'] := by
    unfold rebuildTextWithSpacing
    rw [if_neg (by rw [hrerun]; decide), if_neg (by simp), if_neg (by rw [hg2]; simp),
      if_neg (by rw [hm2]; norm_num), hm2, hthr2, hrerun]
    norm_num [pairSegs, insertSegNL, charGap]
    decide
  refine ⟨?_, ?_⟩
  · rw [hrun1]
    decide
  · rw [hrun2]
    decide

/-! ## Image model -/

/-- An RGB pixel (the converter renders with `alpha=False`). -/
abbrev Pix := ℕ × ℕ × ℕ

/-- A PIL image: dimensions plus a total pixel map (the embedding of the
mutable buffer; the code never reads out of range). -/
structure Img where
  width : ℤ
  height : ℤ
  px : ℤ → ℤ → Pix

/-- Python `int()` on a rational: truncation toward zero. -/
def pyTrunc (q : ℚ) : ℤ := if 0 ≤ q then ⌊q⌋ else ⌈q⌉

/-- An integer (pixel-space) rectangle. -/
structure IRect where
  x0 : ℤ
  y0 : ℤ
  x1 : ℤ
  y1 : ℤ
deriving DecidableEq, Repr

/-- Closed-rectangle membership: PIL's `rectangle` fill covers both corner
pixels inclusively. -/
def IRect.containsPt (r : IRect) (x y : ℤ) : Prop :=
  r.x0 ≤ x ∧ x ≤ r.x1 ∧ r.y0 ≤ y ∧ y ≤ r.y1

instance (r : IRect) (x y : ℤ) : Decidable (r.containsPt x y) := by
  unfold IRect.containsPt
  infer_instance

/-- The bbox scaled to image coordinates with Python `int()` per coordinate
(source lines 969-972). -/
def scaledRect (bb : BBox) (zoom : ℚ) : IRect :=
  ⟨pyTrunc (bb.x0 * zoom), pyTrunc (bb.y0 * zoom), pyTrunc (bb.x1 * zoom), pyTrunc (bb.y1 * zoom)⟩

/-- `padding = max(2, int(2 * zoom / 72.0))` (source line 979). -/
def paddingOf (zoom : ℚ) : ℤ := max 2 (pyTrunc (2 * zoom / 72))

/-- The scaled bbox expanded by the configured padding (before any clamping to
the image). -/
def paddedRect (bb : BBox) (zoom : ℚ) : IRect :=
  ⟨(scaledRect bb zoom).x0 - paddingOf zoom, (scaledRect bb zoom).y0 - paddingOf zoom,
   (scaledRect bb zoom).x1 + paddingOf zoom, (scaledRect bb zoom).y1 + paddingOf zoom⟩

/-- The rectangle the source actually passes to `draw.rectangle`, clamped to
the image bounds (source lines 1000-1020). -/
def erasedRect (I : Img) (bb : BBox) (zoom : ℚ) : IRect :=
  ⟨max 0 ((scaledRect bb zoom).x0 - paddingOf zoom),
   max 0 ((scaledRect bb zoom).y0 - paddingOf zoom),
   min I.width ((scaledRect bb zoom).x1 + paddingOf zoom),
   min I.height ((scaledRect bb zoom).y1 + paddingOf zoom)⟩

/-- Destructive rectangle fill (both bounds inclusive, as PIL draws). -/
def fillRect (I : Img) (r : IRect) (col : Pix) : Img :=
  { I with px := fun x y => if r.containsPt x y then col else I.px x y }

/-- Fuel-driven worker for `gridPts`; the fuel `(b - a).toNat` always suffices
since each step advances `a` by `s ≥ 1`. -/
def gridPtsAux : ℕ → ℤ → ℤ → ℤ → List ℤ
  | 0, _, _, _ => []
  | n + 1, a, b, s => if a < b ∧ 0 < s then a :: gridPtsAux n (a + s) b s else []

/-- Python `range(a, b, s)` for `s > 0` (empty for a degenerate range). -/
def gridPts (a b s : ℤ) : List ℤ :=
  gridPtsAux (b - a).toNat a b s

/-- All pixels of the coarse sampling grid over a clipped region. -/
def regionGridPix (I : Img) (cx0 cy0 cx1 cy1 step : ℤ) : List Pix :=
  ((gridPts cy0 cy1 step).map (fun y => (gridPts cx0 cx1 step).map (fun x => I.px x y))).flatten

/-- Pixel counted as non-white by `_is_complex_glyph_region`:
`(r + g + b) / 3 < 245`. -/
def pixIsNonWhite (p : Pix) : Bool :=
  decide (((p.1 : ℚ) + p.2.1 + p.2.2) / 3 < 245)

def sumR (l : List Pix) : ℚ := (l.map (fun p => (p.1 : ℚ))).sum

def sumG (l : List Pix) : ℚ := (l.map (fun p => (p.2.1 : ℚ))).sum

def sumB (l : List Pix) : ℚ := (l.map (fun p => (p.2.2 : ℚ))).sum

def sumR2 (l : List Pix) : ℚ := (l.map (fun p => (p.1 : ℚ) * p.1)).sum

def sumG2 (l : List Pix) : ℚ := (l.map (fun p => (p.2.1 : ℚ) * p.2.1)).sum

def sumB2 (l : List Pix) : ℚ := (l.map (fun p => (p.2.2 : ℚ) * p.2.2)).sum

/-- Summed per-channel variance `Σ_ch (E[v²] − E[v]²)` over the sample
(source lines 1068-1072). -/
def sampleVariance (l : List Pix) : ℚ :=
  (sumR2 l / l.length - (sumR l / l.length) * (sumR l / l.length)) +
  (sumG2 l / l.length - (sumG l / l.length) * (sumG l / l.length)) +
  (sumB2 l / l.length - (sumB l / l.length) * (sumB l / l.length))

/-- The clipped coarse-grid sample of `_is_complex_glyph_region`:
stride `max(1, min(width, height) // 6)` over the region clamped to the
image. -/
def complexSamples (I : Img) (r : IRect) : List Pix :=
  regionGridPix I (max 0 r.x0) (max 0 r.y0) (min I.width r.x1) (min I.height r.y1)
    (max 1 (Int.fdiv (min (min I.width r.x1 - max 0 r.x0) (min I.height r.y1 - max 0 r.y0)) 6))

/-- Embedding of `SimplePDFConverter._is_complex_glyph_region` (source lines
1030-1073).  In this model every pixel is an RGB triple, so the source's
`isinstance` guard always passes. -/
def isComplexGlyphRegion (I : Img) (r : IRect) : Bool :=
  if r.x1 ≤ r.x0 ∨ r.y1 ≤ r.y0 then false
  else if (min I.width r.x1 - max 0 r.x0) * (min I.height r.y1 - max 0 r.y0) < 64 then false
  else if (complexSamples I r).length < 12 then false
  else
    decide ((1 / 5 : ℚ) <
        (((complexSamples I r).filter pixIsNonWhite).length : ℚ) /
          ((complexSamples I r).length : ℚ)) &&
    decide ((300 : ℚ) < sampleVariance (complexSamples I r))

/-! ## `_get_background_color` (source lines 855-921) -/

/-- Manhattan distance between two colors. -/
def colorDist (p q : Pix) : ℤ :=
  |(p.1 : ℤ) - q.1| + |(p.2.1 : ℤ) - q.2.1| + |(p.2.2 : ℤ) - q.2.2|

/-- Sample points of one ring region: the region's grid with stride
`max(1, extent // 3)` per axis, taken only when the region is non-degenerate. -/
def sampleRegionPts (r : IRect) : List (ℤ × ℤ) :=
  if r.x0 < r.x1 ∧ r.y0 < r.y1 then
    ((gridPts r.y0 r.y1 (max 1 (Int.fdiv (r.y1 - r.y0) 3))).map (fun y =>
      (gridPts r.x0 r.x1 (max 1 (Int.fdiv (r.x1 - r.x0) 3))).map (fun x => (x, y)))).flatten
  else []

def natAvg (l : List ℕ) : ℕ := l.sum / l.length

/-- Embedding of `SimplePDFConverter._get_background_color`: sample a ring of
regions above/below/left/right of the glyph, keep in-image pixels further than
30 intensity units from the text color, and average them; `none` when no
sample qualifies. -/
def getBackgroundColor (I : Img) (bb : BBox) (zoom : ℚ) (textColor : Pix) : Option Pix :=
  let s := scaledRect bb zoom
  let e := max 5 (pyTrunc (5 * zoom / 72))
  let regions : List IRect :=
    [⟨max 0 (s.x0 - e), max 0 (s.y0 - 2 * e), min I.width (s.x1 + e), max 0 (s.y0 - e)⟩,
     ⟨max 0 (s.x0 - e), min I.height (s.y1 + e), min I.width (s.x1 + e),
      min I.height (s.y1 + 2 * e)⟩,
     ⟨max 0 (s.x0 - 2 * e), max 0 (s.y0 - e), max 0 (s.x0 - e), min I.height (s.y1 + e)⟩,
     ⟨min I.width (s.x1 + e), max 0 (s.y0 - e), min I.width (s.x1 + 2 * e),
      min I.height (s.y1 + e)⟩]
  let colors := (regions.map sampleRegionPts).flatten.filterMap (fun pt =>
    if 0 ≤ pt.1 ∧ pt.1 < I.width ∧ 0 ≤ pt.2 ∧ pt.2 < I.height then
      if 30 < colorDist (I.px pt.1 pt.2) textColor then some (I.px pt.1 pt.2) else none
    else none)
  if colors = [] then none
  else some (natAvg (colors.map (·.1)), natAvg (colors.map (·.2.1)), natAvg (colors.map (·.2.2)))

/-! ## Glyph records and `render_background_without_glyphs`
(source lines 923-1028) -/

/-- One extracted glyph record, as built by `extract_extractable_glyphs`. -/
structure Glyph where
  text : List Char := []
  bbox : Option BBox := none
  fontSize : ℚ := 12
  fontName : List Char := []
  color : Pix := (0, 0, 0)
  chars : List CharRec := []
  forceUppercase : Bool := false
  applySmallCaps : Bool := false
  letterSpacing : Option ℚ := none
  wordSpacing : Option ℚ := none
  alignCenter : Bool := false
  lineBBox : Option BBox := none
  blockBBox : Option BBox := none
  pageWidth : ℚ := 0
  dropcapCandidate : Bool := false
deriving DecidableEq, Repr

def whitePix : Pix := (255, 255, 255)

/-- One iteration of the erasure loop of `render_background_without_glyphs`:
`none` models the `TypeError` the source would raise unpacking a missing bbox;
`(I, false)` means the glyph was a visually complex drop-cap region, left in
the background and not promoted; `(I', true)` means its rectangle was erased
(with the background-aware fill for near-white text) and the glyph is promoted
to the filtered list. -/
def eraseFill (zoom : ℚ) (I : Img) (g : Glyph) (bb : BBox) : Pix :=
  if 240 < g.color.1 ∧ 240 < g.color.2.1 ∧ 240 < g.color.2.2 then
    match getBackgroundColor I bb zoom g.color with
    | some c => c
    | none => whitePix
  else whitePix

def eraseStep (zoom : ℚ) (I : Img) (g : Glyph) : Option (Img × Bool) :=
  g.bbox.map (fun bb =>
    if g.dropcapCandidate = true ∧ isComplexGlyphRegion I (scaledRect bb zoom) = true then
      (I, false)
    else (fillRect I (erasedRect I bb zoom) (eraseFill zoom I g bb), true))

/-- Whether the erase step promoted the glyph into the filtered list. -/
def eraseKept (zoom : ℚ) (I : Img) (g : Glyph) : Option Bool :=
  (eraseStep zoom I g).map (·.2)

/-- The whole background pass: erase each glyph in order on the evolving image
and collect the filtered list. -/
def renderBackground (zoom : ℚ) : Img → List Glyph → Option (Img × List Glyph)
  | I, [] => some (I, [])
  | I, g :: rest =>
    match eraseStep zoom I g with
    | none => none
    | some (I', kept) =>
      match renderBackground zoom I' rest with
      | none => none
      | some (I'', fl) => some (I'', if kept then g :: fl else fl)

/-- C1 (amended): for every glyph the erase step accepts into the filtered
list, the erased rectangle contains every image pixel of the padded scaled
bbox; i.e. it contains the intersection of the padded scaled bbox with the
image (the source clamps the drawn rectangle to the image bounds, so the
claim's unclamped containment fails at the borders — see the
counterexample). -/
theorem c1_erase_containment (zoom : ℚ) (I : Img) (g : Glyph) (bb : BBox)
    (_hbb : g.bbox = some bb)
    (_hkept : eraseKept zoom I g = some true)
    (x y : ℤ)
    (hpt : (paddedRect bb zoom).containsPt x y)
    (hx0 : 0 ≤ x) (hx1 : x ≤ I.width - 1) (hy0 : 0 ≤ y) (hy1 : y ≤ I.height - 1) :
    (erasedRect I bb zoom).containsPt x y := by
  unfold IRect.containsPt at hpt ⊢
  unfold paddedRect at hpt
  unfold erasedRect
  obtain ⟨h1, h2, h3, h4⟩ := hpt
  exact ⟨max_le hx0 h1, le_min (by omega) h2, max_le hy0 h3, le_min (by omega) h4⟩

/-- All-white 100×100 page image. -/
def img100 : Img := ⟨100, 100, fun _ _ => whitePix⟩

def c1WitnessBBox : BBox := ⟨20, 20, 30, 30⟩

def c1WitnessGlyph : Glyph := { bbox := some c1WitnessBBox }

theorem c1_scaled_witness : scaledRect c1WitnessBBox 1 = ⟨20, 20, 30, 30⟩ := by
  unfold scaledRect pyTrunc c1WitnessBBox
  norm_num

theorem c1_padding_one : paddingOf 1 = 2 := by
  unfold paddingOf pyTrunc
  norm_num

/-- Witness for C1: an interior glyph at zoom 1; the point (18,18) of the
padded scaled bbox lies inside the erased rectangle. -/
theorem c1_erase_containment_witness :
    (erasedRect img100 c1WitnessBBox 1).containsPt 18 18 := by
  refine c1_erase_containment 1 img100 c1WitnessGlyph c1WitnessBBox rfl ?_ 18 18 ?_
    (by norm_num) (by norm_num [img100]) (by norm_num) (by norm_num [img100])
  · unfold eraseKept eraseStep c1WitnessGlyph
    simp
  · unfold IRect.containsPt paddedRect
    rw [c1_scaled_witness, c1_padding_one]
    norm_num

def c1CexBBox : BBox := ⟨0, 0, 10, 10⟩

def c1CexGlyph : Glyph := { bbox := some c1CexBBox }

theorem c1_cex_scaled : scaledRect c1CexBBox 1 = ⟨0, 0, 10, 10⟩ := by
  unfold scaledRect pyTrunc c1CexBBox
  norm_num

/-- Counterexample to C1 as stated: a glyph whose bbox touches the page corner
is accepted into the filtered list, its padded scaled bbox contains the point
(-2,-2), but the erased rectangle (clamped to the image at 0) does not contain
that point, so the erased rectangle does not fully contain the padded scaled
bbox. -/
theorem c1_claim_false :
    eraseKept 1 img100 c1CexGlyph = some true ∧
    (paddedRect c1CexBBox 1).containsPt (-2) (-2) ∧
    ¬ (erasedRect img100 c1CexBBox 1).containsPt (-2) (-2) := by
  refine ⟨?_, ?_, ?_⟩
  · unfold eraseKept eraseStep c1CexGlyph
    simp
  · unfold IRect.containsPt paddedRect
    rw [c1_cex_scaled, c1_padding_one]
    norm_num
  · unfold IRect.containsPt erasedRect
    rw [c1_cex_scaled, c1_padding_one]
    decide

/-- C2 (amended): a drop-cap-flagged glyph whose scaled bbox region is
non-degenerate, has clipped area ≥ 64 and at least 12 coarse-grid samples, and
whose sample has non-white ratio > 20% and summed per-channel variance > 300,
is excluded from both erasure (the image is returned unchanged) and text-layer
promotion (not kept for the filtered list).  Compared to the claim as stated,
the area/sample-count preconditions are required — tiny regions are never
treated as complex (see the counterexample). -/
theorem c2_complex_region_excluded (zoom : ℚ) (I : Img) (g : Glyph) (bb : BBox)
    (hbb : g.bbox = some bb) (hdrop : g.dropcapCandidate = true)
    (hx : (scaledRect bb zoom).x0 < (scaledRect bb zoom).x1)
    (hy : (scaledRect bb zoom).y0 < (scaledRect bb zoom).y1)
    (harea : 64 ≤ (min I.width (scaledRect bb zoom).x1 - max 0 (scaledRect bb zoom).x0) *
        (min I.height (scaledRect bb zoom).y1 - max 0 (scaledRect bb zoom).y0))
    (hsamp : 12 ≤ (complexSamples I (scaledRect bb zoom)).length)
    (hratio : (1 / 5 : ℚ) <
        (((complexSamples I (scaledRect bb zoom)).filter pixIsNonWhite).length : ℚ) /
          ((complexSamples I (scaledRect bb zoom)).length : ℚ))
    (hvar : (300 : ℚ) < sampleVariance (complexSamples I (scaledRect bb zoom))) :
    eraseStep zoom I g = some (I, false) := by
  have hcomplex : isComplexGlyphRegion I (scaledRect bb zoom) = true := by
    unfold isComplexGlyphRegion
    rw [if_neg (by push_neg; omega), if_neg (by omega), if_neg (by omega)]
    simp only [Bool.and_eq_true, decide_eq_true_eq]
    exact ⟨hratio, hvar⟩
  unfold eraseStep
  rw [hbb, Option.map_some']
  rw [if_pos ⟨hdrop, hcomplex⟩]

/-- 100×100 page whose pixels alternate black/white with period 4 along
diagonals (so the stride-2 sampling grid still sees both colors). -/
def imgParity4 : Img :=
  ⟨100, 100, fun x y => if (x + y) % 4 = 0 then (0, 0, 0) else whitePix⟩

def c2WitnessBBox : BBox := ⟨0, 0, 12, 12⟩

def c2WitnessGlyph : Glyph := { bbox := some c2WitnessBBox, dropcapCandidate := true }

theorem c2_scaled_witness : scaledRect c2WitnessBBox 1 = ⟨0, 0, 12, 12⟩ := by
  unfold scaledRect pyTrunc c2WitnessBBox
  norm_num

def blackPix : Pix := (0, 0, 0)

/-- The 36 stride-2 coarse-grid samples of the 12×12 region of `imgParity4`. -/
def c2wPixList : List Pix :=
  [blackPix, whitePix, blackPix, whitePix, blackPix, whitePix, whitePix, blackPix, whitePix,
   blackPix, whitePix, blackPix, blackPix, whitePix, blackPix, whitePix, blackPix, whitePix,
   whitePix, blackPix, whitePix, blackPix, whitePix, blackPix, blackPix, whitePix, blackPix,
   whitePix, blackPix, whitePix, whitePix, blackPix, whitePix, blackPix, whitePix, blackPix]

theorem sum_cast_eq (l : List Pix) (f : Pix → ℕ) (n : ℕ)
    (h : (l.map f).sum = n) : (l.map fun p => ((f p : ℕ) : ℚ)).sum = (n : ℚ) := by
  rw [show (l.map fun p => ((f p : ℕ) : ℚ)) = (l.map f).map (fun k : ℕ => (k : ℚ)) by
        rw [List.map_map]; rfl,
      ← Nat.cast_list_sum, h]

theorem sumsq_cast_eq (l : List Pix) (f : Pix → ℕ) (n : ℕ)
    (h : (l.map fun p => f p * f p).sum = n) :
    (l.map fun p => ((f p : ℚ) * (f p : ℚ))).sum = (n : ℚ) := by
  have h1 : (fun p : Pix => (f p : ℚ) * (f p : ℚ)) = fun p : Pix => ((f p * f p : ℕ) : ℚ) := by
    funext p
    push_cast
    ring
  rw [h1]
  exact sum_cast_eq l (fun p => f p * f p) n h

theorem c2w_grid : gridPts 0 12 2 = [0, 2, 4, 6, 8, 10] := by
  decide

theorem c2w_samples_eval : complexSamples imgParity4 ⟨0, 0, 12, 12⟩ = c2wPixList := by
  decide

theorem c2w_len : c2wPixList.length = 36 := by decide

theorem c2w_nonwhite_len : (c2wPixList.filter pixIsNonWhite).length = 18 := by
  have hB : pixIsNonWhite blackPix = true := by norm_num [pixIsNonWhite, blackPix]
  have hW : pixIsNonWhite whitePix = false := by norm_num [pixIsNonWhite, whitePix]
  simp [c2wPixList, List.filter_cons, hB, hW]

theorem c2w_sumR : sumR c2wPixList = (4590 : ℚ) := by
  unfold sumR
  simpa using sum_cast_eq c2wPixList (fun p => p.1) 4590 (by decide)

theorem c2w_sumG : sumG c2wPixList = (4590 : ℚ) := by
  unfold sumG
  simpa using sum_cast_eq c2wPixList (fun p => p.2.1) 4590 (by decide)

theorem c2w_sumB : sumB c2wPixList = (4590 : ℚ) := by
  unfold sumB
  simpa using sum_cast_eq c2wPixList (fun p => p.2.2) 4590 (by decide)

theorem c2w_sumR2 : sumR2 c2wPixList = (1170450 : ℚ) := by
  unfold sumR2
  simpa using sumsq_cast_eq c2wPixList (fun p => p.1) 1170450 (by decide)

theorem c2w_sumG2 : sumG2 c2wPixList = (1170450 : ℚ) := by
  unfold sumG2
  simpa using sumsq_cast_eq c2wPixList (fun p => p.2.1) 1170450 (by decide)

theorem c2w_sumB2 : sumB2 c2wPixList = (1170450 : ℚ) := by
  unfold sumB2
  simpa using sumsq_cast_eq c2wPixList (fun p => p.2.2) 1170450 (by decide)

theorem c2w_var : (300 : ℚ) < sampleVariance c2wPixList := by
  unfold sampleVariance
  rw [c2w_sumR, c2w_sumG, c2w_sumB, c2w_sumR2, c2w_sumG2, c2w_sumB2, c2w_len]
  norm_num

/-- Witness for C2: a 12×12 drop-cap region over the parity-4 image (36
samples, half of them black) is excluded from erasure and promotion. -/
theorem c2_complex_region_excluded_witness :
    eraseStep 1 imgParity4 c2WitnessGlyph = some (imgParity4, false) := by
  have hs : complexSamples imgParity4 (scaledRect c2WitnessBBox 1) = c2wPixList := by
    rw [c2_scaled_witness]
    exact c2w_samples_eval
  refine c2_complex_region_excluded 1 imgParity4 c2WitnessGlyph c2WitnessBBox rfl rfl ?_ ?_ ?_
    ?_ ?_ ?_
  · rw [c2_scaled_witness]
    decide
  · rw [c2_scaled_witness]
    decide
  · rw [c2_scaled_witness]
    decide
  · rw [hs, c2w_len]
    decide
  · rw [hs, c2w_nonwhite_len, c2w_len]
    norm_num
  · rw [hs]
    exact c2w_var

/-- 100×100 checkerboard page (adjacent pixels alternate black/white). -/
def imgParity2 : Img :=
  ⟨100, 100, fun x y => if (x + y) % 2 = 0 then (0, 0, 0) else whitePix⟩

def c2CexBBox : BBox := ⟨0, 0, 7, 7⟩

def c2CexGlyph : Glyph := { bbox := some c2CexBBox, dropcapCandidate := true }

theorem c2_cex_scaled : scaledRect c2CexBBox 1 = ⟨0, 0, 7, 7⟩ := by
  unfold scaledRect pyTrunc c2CexBBox
  norm_num

/-- The 49 stride-1 coarse-grid samples of the 7×7 region of `imgParity2`. -/
def c2xPixList : List Pix :=
  [blackPix, whitePix, blackPix, whitePix, blackPix, whitePix, blackPix, whitePix, blackPix,
   whitePix, blackPix, whitePix, blackPix, whitePix, blackPix, whitePix, blackPix, whitePix,
   blackPix, whitePix, blackPix, whitePix, blackPix, whitePix, blackPix, whitePix, blackPix,
   whitePix, blackPix, whitePix, blackPix, whitePix, blackPix, whitePix, blackPix, whitePix,
   blackPix, whitePix, blackPix, whitePix, blackPix, whitePix, blackPix, whitePix, blackPix,
   whitePix, blackPix, whitePix, blackPix]

theorem c2x_grid : gridPts 0 7 1 = [0, 1, 2, 3, 4, 5, 6] := by
  decide

theorem c2x_samples_eval : complexSamples imgParity2 ⟨0, 0, 7, 7⟩ = c2xPixList := by
  decide

theorem c2x_len : c2xPixList.length = 49 := by decide

theorem c2x_nonwhite_len : (c2xPixList.filter pixIsNonWhite).length = 25 := by
  have hB : pixIsNonWhite blackPix = true := by norm_num [pixIsNonWhite, blackPix]
  have hW : pixIsNonWhite whitePix = false := by norm_num [pixIsNonWhite, whitePix]
  simp [c2xPixList, List.filter_cons, hB, hW]

theorem c2x_sumR : sumR c2xPixList = (6120 : ℚ) := by
  unfold sumR
  simpa using sum_cast_eq c2xPixList (fun p => p.1) 6120 (by decide)

theorem c2x_sumG : sumG c2xPixList = (6120 : ℚ) := by
  unfold sumG
  simpa using sum_cast_eq c2xPixList (fun p => p.2.1) 6120 (by decide)

theorem c2x_sumB : sumB c2xPixList = (6120 : ℚ) := by
  unfold sumB
  simpa using sum_cast_eq c2xPixList (fun p => p.2.2) 6120 (by decide)

theorem c2x_sumR2 : sumR2 c2xPixList = (1560600 : ℚ) := by
  unfold sumR2
  simpa using sumsq_cast_eq c2xPixList (fun p => p.1) 1560600 (by decide)

theorem c2x_sumG2 : sumG2 c2xPixList = (1560600 : ℚ) := by
  unfold sumG2
  simpa using sumsq_cast_eq c2xPixList (fun p => p.2.1) 1560600 (by decide)

theorem c2x_sumB2 : sumB2 c2xPixList = (1560600 : ℚ) := by
  unfold sumB2
  simpa using sumsq_cast_eq c2xPixList (fun p => p.2.2) 1560600 (by decide)

theorem c2x_var : (300 : ℚ) < sampleVariance c2xPixList := by
  unfold sampleVariance
  rw [c2x_sumR, c2x_sumG, c2x_sumB, c2x_sumR2, c2x_sumG2, c2x_sumB2, c2x_len]
  norm_num

/-- Counterexample to C2 as stated: a drop-cap-flagged glyph over a 7×7
checkerboard region has coarse-grid non-white ratio 25/49 > 20% and summed
per-channel variance ≫ 300, yet (area 49 < 64) it is NOT excluded: its
rectangle is erased and it is promoted to the filtered list. -/
theorem c2_claim_false :
    eraseKept 1 imgParity2 c2CexGlyph = some true ∧
    (1 / 5 : ℚ) <
      (((complexSamples imgParity2 (scaledRect c2CexBBox 1)).filter pixIsNonWhite).length : ℚ) /
        ((complexSamples imgParity2 (scaledRect c2CexBBox 1)).length : ℚ) ∧
    (300 : ℚ) < sampleVariance (complexSamples imgParity2 (scaledRect c2CexBBox 1)) := by
  have hs : complexSamples imgParity2 (scaledRect c2CexBBox 1) = c2xPixList := by
    rw [c2_cex_scaled]
    exact c2x_samples_eval
  refine ⟨?_, ?_, ?_⟩
  · have hc : isComplexGlyphRegion imgParity2 (scaledRect c2CexBBox 1) = false := by
      unfold isComplexGlyphRegion
      rw [c2_cex_scaled]
      rw [if_neg (by decide), if_pos (by decide)]
    unfold eraseKept eraseStep
    rw [show c2CexGlyph.bbox = some c2CexBBox from rfl, Option.map_some', Option.map_some']
    rw [if_neg (by rw [hc]; simp)]
  · rw [hs, c2x_nonwhite_len, c2x_len]
    norm_num
  · rw [hs]
    exact c2x_var

/-! ## `generate_text_layer` + LineTracker (source lines 1075-1304) -/

inductive ScriptType
  | ascii
  | cjk
  | mixed
deriving DecidableEq, Repr

/-- Worker for `_text_script_type`, with the early `"mixed"` return. -/
def scriptGo : List Char → Bool → Bool → Option ScriptType
  | [], hasA, hasC =>
    if hasA then some .ascii else if hasC then some .cjk else none
  | ch :: rest, hasA, hasC =>
    let hasA' := hasA || (decide (ch.toNat ≤ 0x7F) && !pyIsSpace ch)
    let hasC' := hasC || decide (0x2E80 ≤ ch.toNat)
    if hasA' && hasC' then some .mixed else scriptGo rest hasA' hasC'

/-- Embedding of `_text_script_type`: ASCII vs CJK classification of a run. -/
def textScriptType (t : List Char) : Option ScriptType :=
  if t = [] then none else scriptGo t false false

/-- Embedding of `_estimate_text_width`: per-character width approximation by
glyph class. -/
def estimateTextWidth (text : List Char) (fs : ℚ) : ℚ :=
  if text = [] ∨ fs = 0 then 0
  else (text.map (fun ch =>
    if ch = ' ' then fs * (33 / 100)
    else if ch.toNat < 128 then fs * (14 / 25)
    else fs)).sum

/-- One LineTracker entry. -/
structure Tracker where
  centerY : ℚ
  tolerance : ℚ
  rightEdge : Option ℚ
  lastType : Option ScriptType
deriving DecidableEq, Repr

def findTrackerIdxAux (cy tol : ℚ) : List Tracker → ℕ → Option ℕ
  | [], _ => none
  | t :: rest, i =>
    if |cy - t.centerY| ≤ max tol t.tolerance then some i
    else findTrackerIdxAux cy tol rest (i + 1)

/-- The tracker-lookup part of `_get_line_tracker`: first entry whose center-Y
matches within tolerance. -/
def findTrackerIdx (ts : List Tracker) (cy tol : ℚ) : Option ℕ :=
  findTrackerIdxAux cy tol ts 0

/-- Embedding of `_update_line_right_edge` on one tracker entry.  The Python
`right_edge or right_by_estimate` treats a recorded 0.0 as absent. -/
def updateTracker (t : Tracker) (b : BBox) (text : List Char) (fs : ℚ) : Tracker :=
  let rbe := b.x0 + max (b.x1 - b.x0) (estimateTextWidth text fs)
  let base := match t.rightEdge with
    | some r => if r = 0 then rbe else r
    | none => rbe
  { t with
    rightEdge := some (max base rbe)
    lastType := match textScriptType text with
      | some st => some st
      | none => t.lastType }

def translateX (d : ℚ) (b : BBox) : BBox := ⟨b.x0 + d, b.y0, b.x1 + d, b.y1⟩

/-- The shift-and-update core of `adjust_bbox_for_overlap`, acting on the
tracker entry the lookup selected. -/
def adjustCore (t : Tracker) (b : BBox) (fs : ℚ) (text : List Char) : BBox × Tracker :=
  let currentType := textScriptType text
  let allow := (t.lastType = some ScriptType.ascii ∨ t.lastType = some ScriptType.cjk) ∧
    (currentType = some ScriptType.ascii ∨ currentType = some ScriptType.cjk) ∧
    t.lastType ≠ currentType
  let minGap := max (1 / 2) (fs * (2 / 25))
  let b' := match t.rightEdge with
    | some re => if allow ∧ b.x0 ≤ re + 1 / 10 then translateX (re - b.x0 + minGap) b else b
    | none => b
  (b', updateTracker t b' text fs)

/-- Embedding of `adjust_bbox_for_overlap`: no-op for centered runs or missing
bboxes, otherwise find-or-create the visual-line tracker, shift on cross-script
overlap, and record the run's right edge. -/
def adjustBBoxForOverlap (ts : List Tracker) (runBBox lineBBox : Option BBox)
    (alignCenter : Bool) (fs : ℚ) (text : List Char) : Option BBox × List Tracker :=
  match runBBox with
  | none => (none, ts)
  | some b =>
    if alignCenter then (some b, ts)
    else
      let use := lineBBox.getD b
      let cy := (use.y0 + use.y1) / 2
      let tol := max 1 (fs * (3 / 5))
      match findTrackerIdx ts cy tol with
      | some i =>
        let t := ts.getD i ⟨0, 1, none, none⟩
        let (b', t') := adjustCore t b fs text
        (some b', ts.set i t')
      | none =>
        let (b', t') := adjustCore ⟨cy, tol, none, none⟩ b fs text
        (some b', ts ++ [t'])

/-- One emitted text node (the attribute content of one HTML span; the markup
string itself is presentation-only). -/
structure TextNode where
  text : List Char
  bbox : Option BBox
  letterSpacing : Option ℚ
  wordSpacing : Option ℚ
  alignCenter : Bool
  forceUppercase : Bool
  applySmallCaps : Bool
deriving DecidableEq, Repr

/-- One per-character segment from `_split_span_to_char_segments`. -/
structure CharSeg where
  text : List Char
  bbox : BBox
deriving DecidableEq, Repr

/-- Embedding of `_split_span_to_char_segments`: the character records with
non-empty text and a bbox, in order. -/
def splitSpanToCharSegments (chars : List CharRec) : List CharSeg :=
  chars.foldr (fun ch acc =>
    match ch.bbox with
    | some bb => if ch.c = [] then acc else ⟨ch.c, bb⟩ :: acc
    | none => acc) []

def containsCJK (t : List Char) : Bool :=
  t.any (fun c => decide (0x4E00 ≤ c.toNat) && decide (c.toNat ≤ 0x9FFF))

def hasDoubleSpace : List Char → Bool
  | ' ' :: ' ' :: _ => true
  | _ :: rest => hasDoubleSpace rest
  | [] => false

/-- One double-space-split segment. -/
structure RawSeg where
  text : List Char
  chars : List CharRec
deriving DecidableEq, Repr

/-- Fuel-driven worker for `_split_span_by_double_spaces`' scan; the fuel (the
text length) always suffices since each step consumes at least one character of
the first list. -/
def splitBySpacesGo : ℕ → List Char → List CharRec → List Char → List CharRec →
    List RawSeg → List RawSeg
  | _, [], _, curT, curC, segs => if curC ≠ [] then segs ++ [⟨curT, curC⟩] else segs
  | 0, _ :: _, _, curT, curC, segs => if curC ≠ [] then segs ++ [⟨curT, curC⟩] else segs
  | fuel + 1, c :: rest, queue, curT, curC, segs =>
    if c = ' ' then
      if rest.head? = some ' ' then
        let segs' := if curC ≠ [] then segs ++ [⟨curT, curC⟩] else segs
        splitBySpacesGo fuel (rest.dropWhile (· = ' '))
          (queue.dropWhile (fun r => r.c = [' '])) [] [] segs'
      else
        match queue with
        | q :: qs =>
          if q.c = [' '] then splitBySpacesGo fuel rest qs (curT ++ [' ']) (curC ++ [q]) segs
          else splitBySpacesGo fuel rest queue (curT ++ [' ']) curC segs
        | [] => splitBySpacesGo fuel rest [] (curT ++ [' ']) curC segs
    else
      match queue with
      | q :: qs => splitBySpacesGo fuel rest qs (curT ++ [c]) (curC ++ [q]) segs
      | [] => splitBySpacesGo fuel rest [] (curT ++ [c]) curC segs

/-- Embedding of `_split_span_by_double_spaces`: splits a CJK-bearing span at
runs of ≥2 spaces, pairing text with its character records; `[]` when not
applicable. -/
def splitSpanByDoubleSpaces (text : List Char) (chars : List CharRec) : List RawSeg :=
  let normalized := replaceNBSP text
  if ¬ hasDoubleSpace normalized then []
  else if ¬ containsCJK normalized then []
  else if chars = [] then []
  else (splitBySpacesGo normalized.length normalized chars [] [] []).filter
    (fun s => pyStrip s.text ≠ [])

/-- Embedding of `_segment_bbox_from_chars`. -/
def segmentBBoxFromChars (chars : List CharRec) (dflt : Option BBox) : Option BBox :=
  match chars.filterMap (·.bbox) with
  | [] => dflt
  | b :: rest =>
    some ⟨((b :: rest).map (·.x0)).foldl min b.x0, ((b :: rest).map (·.y0)).foldl min b.y0,
          ((b :: rest).map (·.x1)).foldl max b.x1, ((b :: rest).map (·.y1)).foldl max b.y1⟩

/-- One iteration of the glyph loop of `generate_text_layer`: the emitted nodes
for this glyph and the updated tracker list. -/
def genStep (ts : List Tracker) (g : Glyph) : List TextNode × List Tracker :=
  let charSegs := splitSpanToCharSegments g.chars
  if charSegs ≠ [] then
    (charSegs.map (fun s =>
      { text := if s.text = [' '] then nbspToken else s.text
        bbox := some s.bbox
        letterSpacing := none
        wordSpacing := none
        alignCenter := false
        forceUppercase := g.forceUppercase
        applySmallCaps := g.applySmallCaps }), ts)
  else
    let splitSegs := if g.alignCenter then [] else splitSpanByDoubleSpaces g.text g.chars
    if splitSegs ≠ [] then
      splitSegs.foldl (fun acc s =>
        let r := adjustBBoxForOverlap acc.2 (segmentBBoxFromChars s.chars g.bbox)
          g.lineBBox false g.fontSize s.text
        (acc.1 ++ [{ text := s.text, bbox := r.1, letterSpacing := g.letterSpacing,
                     wordSpacing := g.wordSpacing, alignCenter := false,
                     forceUppercase := g.forceUppercase,
                     applySmallCaps := g.applySmallCaps }],
         r.2)) ([], ts)
    else
      let r := adjustBBoxForOverlap ts g.bbox g.lineBBox g.alignCenter g.fontSize g.text
      ([{ text := g.text, bbox := r.1, letterSpacing := g.letterSpacing,
          wordSpacing := g.wordSpacing, alignCenter := g.alignCenter,
          forceUppercase := g.forceUppercase, applySmallCaps := g.applySmallCaps }], r.2)

def genTextLayerAux (ts : List Tracker) : List Glyph → List TextNode × List Tracker
  | [] => ([], ts)
  | g :: rest =>
    ((genStep ts g).1 ++ (genTextLayerAux (genStep ts g).2 rest).1,
     (genTextLayerAux (genStep ts g).2 rest).2)

/-- Embedding of `generate_text_layer`: all nodes of a page, threading a fresh
tracker list. -/
def generateTextLayer (gs : List Glyph) : List TextNode :=
  (genTextLayerAux [] gs).1

theorem genTextLayerAux_append (ts : List Tracker) (xs ys : List Glyph) :
    genTextLayerAux ts (xs ++ ys) =
      ((genTextLayerAux ts xs).1 ++ (genTextLayerAux (genTextLayerAux ts xs).2 ys).1,
       (genTextLayerAux (genTextLayerAux ts xs).2 ys).2) := by
  induction xs generalizing ts with
  | nil => simp [genTextLayerAux]
  | cons g rest ih =>
    simp only [List.cons_append, genTextLayerAux, List.append_eq]
    rw [ih]
    simp [List.append_assoc]

/-- The per-character node a valid character record becomes. -/
def mkCharNode (g : Glyph) (s : CharSeg) : TextNode :=
  { text := if s.text = [' '] then nbspToken else s.text
    bbox := some s.bbox
    letterSpacing := none
    wordSpacing := none
    alignCenter := false
    forceUppercase := g.forceUppercase
    applySmallCaps := g.applySmallCaps }

theorem genStep_char_segments (ts : List Tracker) (g : Glyph)
    (h : splitSpanToCharSegments g.chars ≠ []) :
    genStep ts g = ((splitSpanToCharSegments g.chars).map (mkCharNode g), ts) := by
  unfold genStep mkCharNode
  rw [if_pos h]

/-- C9: a glyph whose chars list holds at least one record with non-empty text
and a bbox is rendered as exactly one positioned node per such record — with
letter-spacing and word-spacing unset, centering disabled, and the character
bbox taken unmodified — no whole-run node is emitted for it, and the line
tracker is not consulted or updated (the trackers passed on to the following
glyphs are unchanged). -/
theorem c9_per_char_nodes (ts : List Tracker) (pre post : List Glyph) (g : Glyph)
    (h : splitSpanToCharSegments g.chars ≠ []) :
    (genTextLayerAux ts (pre ++ g :: post)).1 =
      (genTextLayerAux ts pre).1 ++
        (splitSpanToCharSegments g.chars).map (mkCharNode g) ++
        (genTextLayerAux (genTextLayerAux ts pre).2 post).1 ∧
    (genTextLayerAux ts (pre ++ [g])).2 = (genTextLayerAux ts pre).2 := by
  constructor
  · rw [genTextLayerAux_append]
    show (genTextLayerAux ts pre).1 ++
        ((genStep (genTextLayerAux ts pre).2 g).1 ++
          (genTextLayerAux (genStep (genTextLayerAux ts pre).2 g).2 post).1) = _
    rw [genStep_char_segments _ g h]
    simp [List.append_assoc]
  · rw [genTextLayerAux_append]
    show (genTextLayerAux (genStep (genTextLayerAux ts pre).2 g).2 []).2 = _
    rw [genStep_char_segments _ g h]
    rfl

def c9Glyph : Glyph := { chars := [⟨['H'], some ⟨1, 2, 3, 4⟩⟩] }

/-- Witness for C9 at a single one-character glyph. -/
theorem c9_per_char_nodes_witness :
    (genTextLayerAux [] ([] ++ c9Glyph :: [])).1 =
      (genTextLayerAux [] []).1 ++
        (splitSpanToCharSegments c9Glyph.chars).map (mkCharNode c9Glyph) ++
        (genTextLayerAux (genTextLayerAux [] []).2 []).1 ∧
    (genTextLayerAux [] ([] ++ [c9Glyph])).2 = (genTextLayerAux [] []).2 :=
  c9_per_char_nodes [] [] [] c9Glyph (by decide)

def c8GlyphA : Glyph :=
  { text := ['A', 'B'], bbox := some ⟨40, 0, 100, 10⟩, fontSize := 10 }

def c8GlyphB : Glyph :=
  { text := ['中'], bbox := some ⟨95, 0, 105, 10⟩, fontSize := 10 }

/-- C8 (amended): a non-centered run is shifted rightward only when the tracked
line records a right edge `re` of a preceding run, the preceding and current
script classes are ASCII/CJK and differ, and the run starts at or before
`re + 0.1` (the source allows a 0.1 tolerance past the recorded right edge; the
claim's "at or before the recorded right edge" is refuted by the
counterexample); the applied shift is exactly `(re − left) + minGap` with
`minGap = max(0.5, font_size × 0.08)`.  In particular two same-baseline spans,
ASCII with recorded right edge 100 and CJK starting at 95, make the CJK run
shift right by exactly `(100 − 95) + minGap`. -/
theorem c8_overlap_shift :
    (∀ (t : Tracker) (b : BBox) (fs : ℚ) (text : List Char),
      (adjustCore t b fs text).1 ≠ b →
      ∃ re, t.rightEdge = some re ∧
        (t.lastType = some ScriptType.ascii ∨ t.lastType = some ScriptType.cjk) ∧
        (textScriptType text = some ScriptType.ascii ∨
          textScriptType text = some ScriptType.cjk) ∧
        t.lastType ≠ textScriptType text ∧
        b.x0 ≤ re + 1 / 10 ∧
        (adjustCore t b fs text).1 = translateX (re - b.x0 + max (1 / 2) (fs * (2 / 25))) b) ∧
    (generateTextLayer [c8GlyphA, c8GlyphB]).map (·.bbox) =
      [some ⟨40, 0, 100, 10⟩,
       some (translateX ((100 - 95) + max (1 / 2) ((10 : ℚ) * (2 / 25))) ⟨95, 0, 105, 10⟩)] := by
  constructor
  · intro t b fs text h
    cases hre : t.rightEdge with
    | none =>
      exfalso
      apply h
      simp only [adjustCore, hre]
    | some re =>
      simp only [adjustCore, hre] at h ⊢
      by_cases hc : ((t.lastType = some ScriptType.ascii ∨ t.lastType = some ScriptType.cjk) ∧
          (textScriptType text = some ScriptType.ascii ∨
            textScriptType text = some ScriptType.cjk) ∧
          t.lastType ≠ textScriptType text) ∧ b.x0 ≤ re + 1 / 10
      · exact ⟨re, rfl, hc.1.1, hc.1.2.1, hc.1.2.2, hc.2, by rw [if_pos hc]⟩
      · rw [if_neg hc] at h
        exact absurd rfl h
  · have hstepA : genStep [] c8GlyphA =
        ([{ text := ['A', 'B'], bbox := some ⟨40, 0, 100, 10⟩, letterSpacing := none,
            wordSpacing := none, alignCenter := false, forceUppercase := false,
            applySmallCaps := false }],
         [⟨5, 6, some 100, some ScriptType.ascii⟩]) := by
      unfold genStep c8GlyphA
      simp [splitSpanToCharSegments, splitSpanByDoubleSpaces, hasDoubleSpace, replaceNBSP,
        adjustBBoxForOverlap, findTrackerIdx, findTrackerIdxAux, adjustCore, updateTracker,
        textScriptType, scriptGo, estimateTextWidth, translateX, pyIsSpace, max_def]
      try norm_num
      try simp
      try norm_num
    have hstepB : genStep [⟨5, 6, some 100, some ScriptType.ascii⟩] c8GlyphB =
        ([{ text := ['中'], bbox := some ⟨504 / 5, 0, 554 / 5, 10⟩, letterSpacing := none,
            wordSpacing := none, alignCenter := false, forceUppercase := false,
            applySmallCaps := false }],
         [⟨5, 6, some (554 / 5), some ScriptType.cjk⟩]) := by
      unfold genStep c8GlyphB
      simp [splitSpanToCharSegments, splitSpanByDoubleSpaces, hasDoubleSpace, replaceNBSP,
        adjustBBoxForOverlap, findTrackerIdx, findTrackerIdxAux, adjustCore, updateTracker,
        textScriptType, scriptGo, estimateTextWidth, translateX, pyIsSpace, max_def]
      try norm_num
      try simp
      try norm_num
    unfold generateTextLayer
    simp only [genTextLayerAux]
    rw [hstepA]
    dsimp only
    rw [hstepB]
    dsimp only
    simp [translateX, max_def]
    try norm_num

/-- Witness for C8 at the two-span situation of the claim (tracker recording an
ASCII run with right edge 100, CJK run starting at 95). -/
theorem c8_overlap_shift_witness :
    ∃ re, (Tracker.mk 5 6 (some 100) (some ScriptType.ascii)).rightEdge = some re ∧
      ((Tracker.mk 5 6 (some 100) (some ScriptType.ascii)).lastType = some ScriptType.ascii ∨
        (Tracker.mk 5 6 (some 100) (some ScriptType.ascii)).lastType = some ScriptType.cjk) ∧
      (textScriptType ['中'] = some ScriptType.ascii ∨
        textScriptType ['中'] = some ScriptType.cjk) ∧
      (Tracker.mk 5 6 (some 100) (some ScriptType.ascii)).lastType ≠ textScriptType ['中'] ∧
      (BBox.mk 95 0 105 10).x0 ≤ re + 1 / 10 ∧
      (adjustCore ⟨5, 6, some 100, some ScriptType.ascii⟩ ⟨95, 0, 105, 10⟩ 10 ['中']).1 =
        translateX (re - (BBox.mk 95 0 105 10).x0 + max (1 / 2) ((10 : ℚ) * (2 / 25)))
          ⟨95, 0, 105, 10⟩ := by
  refine c8_overlap_shift.1 ⟨5, 6, some 100, some ScriptType.ascii⟩ ⟨95, 0, 105, 10⟩ 10 ['中'] ?_
  have h : (adjustCore ⟨5, 6, some 100, some ScriptType.ascii⟩ ⟨95, 0, 105, 10⟩ 10 ['中']).1 =
      ⟨504 / 5, 0, 554 / 5, 10⟩ := by
    unfold adjustCore
    simp [textScriptType, scriptGo, pyIsSpace, translateX, max_def]
    norm_num
  rw [h]
  intro hc
  rw [BBox.mk.injEq] at hc
  norm_num at hc

/-- Counterexample to C8 as stated: a CJK run starting at x = 100.05, strictly
AFTER the recorded right edge 100 of the preceding ASCII run, is still shifted
(the source tolerates `left ≤ right_edge + 0.1`), refuting "shifted only when
it starts at or before the recorded right edge". -/
theorem c8_claim_false :
    (adjustCore ⟨5, 6, some 100, some ScriptType.ascii⟩ ⟨2001 / 20, 0, 2201 / 20, 10⟩ 10
      ['中']).1 ≠ ⟨2001 / 20, 0, 2201 / 20, 10⟩ ∧
    (100 : ℚ) < 2001 / 20 := by
  constructor
  · have h : (adjustCore ⟨5, 6, some 100, some ScriptType.ascii⟩ ⟨2001 / 20, 0, 2201 / 20, 10⟩
        10 ['中']).1 = ⟨504 / 5, 0, 554 / 5, 10⟩ := by
      unfold adjustCore
      simp [textScriptType, scriptGo, pyIsSpace, translateX, max_def]
      norm_num
    rw [h]
    intro hc
    rw [BBox.mk.injEq] at hc
    norm_num at hc
  · norm_num

/-! ## `extract_extractable_glyphs` (source lines 52-400) and helpers -/

def arialName : List Char := ['A', 'r', 'i', 'a', 'l']

/-- Python `s.split('+')` worker. -/
def splitOnPlusAux : List Char → List Char → List (List Char)
  | [], acc => [acc.reverse]
  | '+' :: rest, acc => acc.reverse :: splitOnPlusAux rest []
  | c :: rest, acc => splitOnPlusAux rest (c :: acc)

/-- Embedding of `_normalize_font_name`: strip the subset prefix up to the last
`'+'`. -/
def normalizeFontName (n : List Char) : List Char :=
  if n = [] then n
  else if n.contains '+' then
    let parts := splitOnPlusAux n []
    if 1 < parts.length then parts.getLastD [] else n
  else n

/-- Embedding of `_should_center_span` (source lines 677-708). -/
def shouldCenterSpan (text : List Char) (lineBBox : Option BBox) (pageWidth : ℚ)
    (blockLineCount : ℕ) (fontSize medianFontSize : ℚ) : Bool :=
  let stripped := pyStrip (replaceNBSP text)
  match lineBBox with
  | none => false
  | some lb =>
    if stripped = [] ∨ pageWidth = 0 then false
    else if blockLineCount ≠ 0 ∧ 3 < blockLineCount then false
    else if lb.x1 - lb.x0 ≤ 0 then false
    else if pageWidth * (85 / 100) < lb.x1 - lb.x0 then false
    else if pageWidth * (8 / 100) < |(lb.x0 + lb.x1) / 2 - pageWidth / 2| then false
    else
      let tokens := pySplitWS stripped
      let letterTokens := tokens.filter isLetterToken
      let isLS := decide (4 ≤ tokens.length) &&
        decide ((7 / 10 : ℚ) ≤ (letterTokens.length : ℚ) / (tokens.length : ℚ))
      let isShort := decide (tokens.length ≤ 6) && decide (stripped.length ≤ 40)
      let isNarrow := decide (lb.x1 - lb.x0 ≤ pageWidth * (55 / 100))
      let isLarge := decide (medianFontSize ≠ 0) &&
        decide (medianFontSize * (28 / 25) ≤ fontSize)
      isLS || (isShort && (isLarge || isNarrow))

/-- Gap classification of `_compute_span_spacing`: nonnegative consecutive gaps
split into space-adjacent and letter gaps (order preserved). -/
def gapsClassify : List CharRec → List ℚ × List ℚ
  | a :: b :: rest =>
    (match charGap a b with
     | some g =>
       if g < 0 then gapsClassify (b :: rest)
       else if a.c = [' '] ∨ b.c = [' '] then
         ((gapsClassify (b :: rest)).1, g :: (gapsClassify (b :: rest)).2)
       else (g :: (gapsClassify (b :: rest)).1, (gapsClassify (b :: rest)).2)
     | none => gapsClassify (b :: rest))
  | _ => ([], [])

/-- Embedding of `_compute_span_spacing` (source lines 779-829). -/
def computeSpanSpacing (chars : List CharRec) (fontSize : ℚ) (isLetterSpaced : Bool) :
    Option ℚ × Option ℚ :=
  if chars.length < 2 then (none, none)
  else if isLetterSpaced then (none, none)
  else
    let letterGaps := (gapsClassify chars).1
    let spaceGaps := (gapsClassify chars).2
    if letterGaps = [] ∧ spaceGaps = [] then (none, none)
    else
      let letterGap := if letterGaps ≠ [] then medianUpper letterGaps else 0
      let spaceGap : Option ℚ :=
        if spaceGaps ≠ [] then some (medianUpper spaceGaps)
        else
          let largeGaps := letterGaps.filter
            (fun g => max (letterGap * 3) (fontSize * (2 / 5)) < g)
          if largeGaps ≠ [] then some (medianUpper largeGaps) else none
      (if (1 / 10 : ℚ) < letterGap then some letterGap else none,
       match spaceGap with
       | some sg =>
         if (1 / 10 : ℚ) < sg then
           if (1 / 10 : ℚ) < sg - (if 0 < letterGap then letterGap else 0) then
             some (sg - (if 0 < letterGap then letterGap else 0))
           else none
         else none
       | none => none)

/-- A line as handed to the span stage: possibly a baseline-merged fusion, in
which case `_line_groups` holds the original raw lines. -/
structure ProcLine where
  bbox : Option BBox := none
  spans : List SpanRec := []
  lineGroups : List RawLine := []
deriving DecidableEq, Repr

def rawToProc (l : RawLine) : ProcLine := ⟨l.bbox, l.spans, []⟩

/-- Embedding of `_merge_line_group` (source lines 630-648): union bbox,
concatenated spans, original group recorded.  (The source would raise on a
group with no bboxes; only bbox-bearing lines are ever grouped.) -/
def mergeLineGroup (group : List RawLine) : ProcLine :=
  { bbox :=
      match group.filterMap (·.bbox) with
      | [] => none
      | b :: rest =>
        some ⟨(rest.map (·.x0)).foldl min b.x0, (rest.map (·.y0)).foldl min b.y0,
              (rest.map (·.x1)).foldl max b.x1, (rest.map (·.y1)).foldl max b.y1⟩
    spans := (group.map (·.spans)).flatten
    lineGroups := group }

/-- The baseline key `round(y0 / 0.5) * 0.5`. -/
def baselineKey (bb : BBox) : ℚ := (pyRound (bb.y0 / (1 / 2)) : ℚ) * (1 / 2)

def insertGrouped (gs : List (ℚ × List RawLine)) (k : ℚ) (l : RawLine) :
    List (ℚ × List RawLine) :=
  match gs with
  | [] => [(k, [l])]
  | (k', g) :: rest =>
    if k = k' then (k', g ++ [l]) :: rest else (k', g) :: insertGrouped rest k l

/-- Baseline grouping in Python-dict insertion order; lines without a bbox are
dropped. -/
def groupByBaseline (lines : List RawLine) : List (ℚ × List RawLine) :=
  lines.foldl (fun acc l =>
    match l.bbox with
    | none => acc
    | some bb => insertGrouped acc (baselineKey bb) l) []

/-- The `block_line_count <= 3` path (source lines 94-108): merge each
baseline group, keeping singletons as plain lines. -/
def linesToProcessLE3 (lines : List RawLine) : List ProcLine :=
  (groupByBaseline lines).map (fun kg =>
    if kg.2.length = 1 then rawToProc (kg.2.headD ⟨none, []⟩) else mergeLineGroup kg.2)

def insertGroupedNat (gs : List (ℚ × List ℕ)) (k : ℚ) (i : ℕ) : List (ℚ × List ℕ) :=
  match gs with
  | [] => [(k, [i])]
  | (k', g) :: rest =>
    if k = k' then (k', g ++ [i]) :: rest else (k', g) :: insertGroupedNat rest k i

/-- Baseline groups restricted to title-candidate lines (the `> 3` path,
source lines 109-138), by line index. -/
def titleGroupsGT3 (lines : List RawLine) : List (ℚ × List ℕ) :=
  (List.range lines.length).foldl (fun acc i =>
    match lines.get? i with
    | none => acc
    | some l =>
      if isTitleLine l then
        match l.bbox with
        | none => acc
        | some bb => insertGroupedNat acc (baselineKey bb) i
      else acc) []

/-- The `block_line_count > 3` path: merge only multi-member title groups,
emitting each merged line at its first member's position and every other line
unchanged. -/
def linesToProcessGT3 (lines : List RawLine) : List ProcLine :=
  let gs := (titleGroupsGT3 lines).filter (fun g => 2 ≤ g.2.length)
  if gs = [] then lines.map rawToProc
  else
    (List.range lines.length).foldr (fun i acc =>
      match gs.find? (fun g => g.2.contains i) with
      | some g =>
        if g.2.head? = some i then
          mergeLineGroup (g.2.filterMap (fun j => lines.get? j)) :: acc
        else acc
      | none =>
        match lines.get? i with
        | some l => rawToProc l :: acc
        | none => acc) []

def keyLtQQ (a b : ℚ × ℚ) : Bool :=
  decide (a.1 < b.1) || (decide (a.1 = b.1) && decide (a.2 < b.2))

def insAfterEq (key : α → ℚ × ℚ) : List α → α → List α
  | [], x => [x]
  | y :: ys, x => if keyLtQQ (key x) (key y) then x :: y :: ys else y :: insAfterEq key ys x

/-- Stable ascending sort by a `(ℚ, ℚ)` key (Python `list.sort(key=...)`). -/
def stableSortBy (key : α → ℚ × ℚ) (l : List α) : List α :=
  l.foldl (insAfterEq key) []

/-- Space-character widths across a merged line's groups (source lines
185-194). -/
def lineGroupSpaceWidths (groups : List RawLine) : List ℚ :=
  ((groups.map (fun lg =>
    (lg.spans.map (fun s => s.chars.filterMap (fun ch =>
      match ch.bbox with
      | some bb => if ch.c = [' '] then some (bb.x1 - bb.x0) else none
      | none => none))).flatten)).flatten)

/-- The parts loop of the merged-line text assembly (source lines 195-220):
between-group spacer tokens sized from the gap, then each group's joined
characters. -/
def lineGroupsParts (fontSize : ℚ) (spaceUnit : Option ℚ) :
    List RawLine → Option BBox → List Char
  | [], _ => []
  | lg :: rest, prevBBox =>
    let lgChars := ((lg.spans.map (·.chars)).flatten).filter
      (fun ch => ch.c ≠ [] ∧ ch.bbox ≠ none)
    if lgChars = [] then lineGroupsParts fontSize spaceUnit rest prevBBox
    else
      let gapPart : List Char :=
        match prevBBox, lg.bbox with
        | some pb, some lb =>
          if max (fontSize * (3 / 5)) 3 < lb.x0 - pb.x1 then
            let g := lb.x0 - pb.x1
            let count :=
              match spaceUnit with
              | some su =>
                if 0 < su then max 6 (min 20 (pyRound (g / su * (11 / 5))))
                else max 2 (min 6 (pyRound (g / max (fontSize * (3 / 10)) 1)))
              | none => max 2 (min 6 (pyRound (g / max (fontSize * (3 / 10)) 1)))
            nbspRepeat (if fontSize * 2 < g then min count 3 else count)
          else []
        | _, _ => []
      gapPart ++ joinCharTexts lgChars ++
        lineGroupsParts fontSize spaceUnit rest
          (match lg.bbox with
           | some lb => some lb
           | none => prevBBox)

def maxQ : List ℚ → ℚ
  | [] => 0
  | x :: xs => xs.foldl max x

def minQ : List ℚ → ℚ
  | [] => 0
  | x :: xs => xs.foldl min x

def colorToRGB (color : ℕ) : Pix :=
  (color / 65536 % 256, color / 256 % 256, color % 256)

/-- The `can_merge` branch (source lines 167-271): merge character-bearing
spans of one line into a single glyph. -/
def processLineCanMerge (pw : ℚ) (bB : Option BBox) (blc : ℕ) (mfs : ℚ)
    (line : ProcLine) : List Glyph :=
  let spans := line.spans
  let mergedChars := stableSortBy
    (fun c => ((c.bbox.getD ⟨0, 0, 0, 0⟩).x0, (c.bbox.getD ⟨0, 0, 0, 0⟩).y0))
    (((spans.map (·.chars)).flatten).filter (fun c => c.c ≠ [] ∧ c.bbox ≠ none))
  if mergedChars = [] then []
  else
    let s0 := spans.headD {}
    let fontName := normalizeFontName (s0.font.getD arialName)
    let fontSize := s0.size.getD 12
    let textA :=
      if line.lineGroups ≠ [] then
        lineGroupsParts fontSize
          (if lineGroupSpaceWidths line.lineGroups ≠ [] then
            some (medianUpper (lineGroupSpaceWidths line.lineGroups))
          else none)
          line.lineGroups none
      else []
    let textB := if textA ≠ [] then textA else rebuildTextWithSpacing mergedChars fontSize false
    let textC := if textB ≠ [] then textB else joinCharTexts mergedChars
    if pyStrip textC = [] then []
    else
      let flags := spanCapsFlags textC
      let bbox := match line.bbox with
        | some lb => some lb
        | none => s0.bbox
      [{ text := textC, bbox := bbox, fontSize := fontSize, fontName := fontName,
         color := colorToRGB (s0.color.getD 0), chars := mergedChars,
         forceUppercase := flags.1, applySmallCaps := flags.2.1,
         letterSpacing := (computeSpanSpacing mergedChars fontSize flags.2.2).1,
         wordSpacing := (computeSpanSpacing mergedChars fontSize flags.2.2).2,
         alignCenter := shouldCenterSpan textC line.bbox pw blc fontSize mfs,
         lineBBox := line.bbox, blockBBox := bB, pageWidth := pw,
         dropcapCandidate := isDropcapCandidate textC fontSize bbox mfs fontName bB }]

def joinOrderedGo (fontSize : ℚ) : SpanRec → List SpanRec → List Char
  | _, [] => []
  | prev, s :: rest =>
    (match prev.bbox, s.bbox with
     | some pb, some sb =>
       if max (fontSize * (2 / 5)) 2 < sb.x0 - pb.x1 then [' '] else []
     | _, _ => []) ++ s.text ++ joinOrderedGo fontSize s rest

/-- Text join of the `can_merge_from_text` branch: span texts in geometric
order with a space wherever the inter-span gap is large. -/
def joinOrderedSpans (fontSize : ℚ) : List SpanRec → List Char
  | [] => []
  | s :: rest => s.text ++ joinOrderedGo fontSize s rest

/-- The `can_merge_from_text` branch (source lines 272-329). -/
def processLineFromText (pw : ℚ) (bB : Option BBox) (blc : ℕ) (mfs : ℚ)
    (line : ProcLine) : List Glyph :=
  let spans := line.spans
  let s0 := spans.headD {}
  let fontName := normalizeFontName (s0.font.getD arialName)
  let fontSize := s0.size.getD 12
  let ordered := stableSortBy
    (fun s => ((s.bbox.getD ⟨0, 0, 0, 0⟩).x0, (s.bbox.getD ⟨0, 0, 0, 0⟩).y0)) spans
  let text := joinOrderedSpans fontSize ordered
  let flags := spanCapsFlags text
  let bbox := match line.bbox with
    | some lb => some lb
    | none => (ordered.headD {}).bbox
  [{ text := text, bbox := bbox, fontSize := fontSize, fontName := fontName,
     color := colorToRGB (s0.color.getD 0), chars := [],
     forceUppercase := flags.1, applySmallCaps := flags.2.1,
     letterSpacing := none, wordSpacing := none,
     alignCenter := shouldCenterSpan text line.bbox pw blc fontSize mfs,
     lineBBox := line.bbox, blockBBox := bB, pageWidth := pw,
     dropcapCandidate := isDropcapCandidate text fontSize bbox mfs fontName bB }]

/-- One span of the plain fallback loop (source lines 331-398).  The
`span["bbox"]` lookup is the ONLY raw (non-`.get`) field access on this path:
on a span that has text but no bbox it raises `KeyError`, modelled as
`Except.error`. -/
def processSpanFallback (pw : ℚ) (bB : Option BBox) (blc : ℕ) (mfs : ℚ)
    (lineBBox : Option BBox) (s : SpanRec) : Except Unit (Option Glyph) :=
  let text1 := if s.text = [] ∧ s.chars ≠ [] then joinCharTexts s.chars else s.text
  if pyStrip text1 = [] then Except.ok none
  else
    let fontSize := s.size.getD 12
    let fontName := normalizeFontName (s.font.getD arialName)
    let rebuilt := rebuildTextWithSpacing s.chars fontSize false
    let text2 := if rebuilt ≠ [] then rebuilt else text1
    let flags := spanCapsFlags text2
    match s.bbox with
    | none => Except.error ()
    | some bb =>
      Except.ok (some
        { text := text2, bbox := some bb, fontSize := fontSize, fontName := fontName,
          color := colorToRGB (s.color.getD 0), chars := s.chars,
          forceUppercase := flags.1, applySmallCaps := flags.2.1,
          letterSpacing := (computeSpanSpacing s.chars fontSize flags.2.2).1,
          wordSpacing := (computeSpanSpacing s.chars fontSize flags.2.2).2,
          alignCenter := shouldCenterSpan text2 lineBBox pw blc fontSize mfs,
          lineBBox := lineBBox, blockBBox := bB, pageWidth := pw,
          dropcapCandidate := isDropcapCandidate text2 fontSize (some bb) mfs fontName bB })

def processSpansLoop (pw : ℚ) (bB : Option BBox) (blc : ℕ) (mfs : ℚ)
    (lineBBox : Option BBox) : List SpanRec → Except Unit (List Glyph)
  | [] => Except.ok []
  | s :: rest =>
    match processSpanFallback pw bB blc mfs lineBBox s with
    | Except.error e => Except.error e
    | Except.ok g? =>
      match processSpansLoop pw bB blc mfs lineBBox rest with
      | Except.error e => Except.error e
      | Except.ok gs =>
        Except.ok (match g? with
          | some g => g :: gs
          | none => gs)

/-- One line of the extractor (source lines 140-398): merge eligibility, the
two merge branches, else the per-span fallback loop. -/
def processLine (pw : ℚ) (bB : Option BBox) (blc : ℕ) (mfs : ℚ) (line : ProcLine) :
    Except Unit (List Glyph) :=
  let spans := line.spans
  let fontNames := spans.map (fun s => normalizeFontName (s.font.getD arialName))
  let colors := spans.map (fun s => s.color.getD 0)
  let sizes := spans.map (fun s => s.size.getD 12)
  let sameStyle := decide (spans ≠ []) &&
    fontNames.all (· = fontNames.headD []) &&
    colors.all (· = colors.headD 0) &&
    decide (maxQ sizes - minQ sizes ≤ 1 / 5)
  let allChars := spans.all (fun s => s.chars ≠ [])
  let canMerge := sameStyle && allChars
  let canMergeFromText := sameStyle && !allChars && spans.all (fun s => pyStrip s.text ≠ [])
  if canMerge then Except.ok (processLineCanMerge pw bB blc mfs line)
  else if canMergeFromText then Except.ok (processLineFromText pw bB blc mfs line)
  else processSpansLoop pw bB blc mfs line.bbox spans

/-- One text block: optional `"bbox"`, and `"lines"` present only for text
blocks. -/
structure BlockRec where
  bbox : Option BBox := none
  lines : Option (List RawLine) := none
deriving DecidableEq, Repr

def processLinesLoop (pw : ℚ) (bB : Option BBox) (blc : ℕ) (mfs : ℚ) :
    List ProcLine → Except Unit (List Glyph)
  | [] => Except.ok []
  | l :: rest =>
    match processLine pw bB blc mfs l with
    | Except.error e => Except.error e
    | Except.ok gs =>
      match processLinesLoop pw bB blc mfs rest with
      | Except.error e => Except.error e
      | Except.ok gs' => Except.ok (gs ++ gs')

/-- One block of the extractor (source lines 88-140 + the line loop).  Blocks
without a `"lines"` key (image blocks) are skipped. -/
def processBlock (pw : ℚ) (mfs : ℚ) (b : BlockRec) : Except Unit (List Glyph) :=
  match b.lines with
  | none => Except.ok []
  | some lines =>
    processLinesLoop pw b.bbox lines.length mfs
      (if lines.length ≠ 0 ∧ lines.length ≤ 3 then linesToProcessLE3 lines
       else linesToProcessGT3 lines)

def processBlocksLoop (pw : ℚ) (mfs : ℚ) : List BlockRec → Except Unit (List Glyph)
  | [] => Except.ok []
  | b :: rest =>
    match processBlock pw mfs b with
    | Except.error e => Except.error e
    | Except.ok gs =>
      match processBlocksLoop pw mfs rest with
      | Except.error e => Except.error e
      | Except.ok gs' => Except.ok (gs ++ gs')

structure PageRec where
  width : ℚ
  blocks : List BlockRec
deriving Repr

/-- The page-median font size over truthy span sizes (default 12). -/
def pageMedianFontSize (blocks : List BlockRec) : ℚ :=
  let sizes := ((blocks.map (fun b =>
    ((b.lines.getD []).map (fun l =>
      l.spans.filterMap (fun s =>
        match s.size with
        | some sz => if sz ≠ 0 then some sz else none
        | none => none))).flatten)).flatten)
  if sizes ≠ [] then medianUpper sizes else 12

/-- Embedding of `extract_extractable_glyphs`: all blocks of a page;
`Except.error` models an uncaught Python exception escaping the stage. -/
def extractExtractableGlyphs (page : PageRec) : Except Unit (List Glyph) :=
  processBlocksLoop page.width (pageMedianFontSize page.blocks) page.blocks

/-! ## C10 concrete pages -/

def c10LineBBox : BBox := ⟨0, 0, 100, 10⟩

def c10BlockBB : BBox := ⟨0, 0, 100, 50⟩

/-- A span with text but no `"bbox"` key: reaches `bbox = span["bbox"]`. -/
def c10SpanMissing : SpanRec :=
  { text := ['h', 'i'], size := some 12, font := some ['F'], color := some 0 }

/-- A whitespace-only span without a bbox: skipped by the blank-text guard
before the raw bbox access. -/
def c10SpanBlank : SpanRec :=
  { text := [' '], size := some 12, font := some ['F'], color := some 0 }

/-- A well-formed span.  Its color differs from its neighbour's, so neither
line-merge branch fires and the per-span fallback loop runs. -/
def c10SpanOkB : SpanRec :=
  { text := ['y', 'o'], size := some 12, font := some ['F'], color := some 255,
    bbox := some ⟨0, 0, 10, 10⟩ }

def c10Line : RawLine := ⟨some c10LineBBox, [c10SpanMissing, c10SpanOkB]⟩

def c10LineOk : RawLine := ⟨some c10LineBBox, [c10SpanBlank, c10SpanOkB]⟩

def c10Block : BlockRec := ⟨some c10BlockBB, some [c10Line]⟩

def c10BlockOk : BlockRec := ⟨some c10BlockBB, some [c10LineOk]⟩

/-- Page whose first span has text but no bbox. -/
def c10Page : PageRec := ⟨100, [c10Block]⟩

/-- Same page with the defective span merely blank instead: the claimed
skip-and-continue behaviour does hold there. -/
def c10PageOk : PageRec := ⟨100, [c10BlockOk]⟩

/-- The glyph the fallback loop produces for `c10SpanOkB`. -/
def c10GlyphB : Glyph :=
  { text := ['y', 'o'], bbox := some ⟨0, 0, 10, 10⟩, fontSize := 12,
    fontName := ['F'], color := (0, 0, 255), chars := [],
    forceUppercase := false, applySmallCaps := false,
    letterSpacing := none, wordSpacing := none, alignCenter := false,
    lineBBox := some c10LineBBox, blockBBox := some c10BlockBB,
    pageWidth := 100, dropcapCandidate := false }

/-- C10: the claim says a span missing an expected field (e.g. a bbox) is
skipped on its own and extraction continues with no escaping exception.  A
whitespace-only span is indeed skipped (first conjunct), but a span with text
and no `"bbox"` key reaches the raw `span["bbox"]` lookup on the fallback
path, and the resulting `KeyError` aborts the whole page extraction (second
conjunct): the claim's error-handling guarantee fails on that input. -/
theorem c10_missing_bbox_keyerror :
    extractExtractableGlyphs c10PageOk = Except.ok [c10GlyphB] ∧
    extractExtractableGlyphs c10Page = Except.error () := by
  have hstr : pyStrip (replaceNBSP ['y', 'o']) = ['y', 'o'] := rfl
  have hstr2 : pyStrip ['y', 'o'] = ['y', 'o'] := rfl
  have hfn : normalizeFontName ['F'] = ['F'] := rfl
  have hrb : rebuildTextWithSpacing [] 12 false = [] := rfl
  have hflags : spanCapsFlags ['y', 'o'] = (false, false, false) := rfl
  have hsp : computeSpanSpacing [] 12 false = (none, none) := rfl
  have hc : colorToRGB 255 = (0, 0, 255) := rfl
  have hcenter : shouldCenterSpan ['y', 'o'] (some c10LineBBox) 100 1 12 12 = false := by
    simp [shouldCenterSpan, hstr, c10LineBBox]
    try norm_num
    try simp
    try norm_num
  have hdrop : isDropcapCandidate ['y', 'o'] 12 (some ⟨0, 0, 10, 10⟩) 12 ['F']
      (some c10BlockBB) = false := by
    simp [isDropcapCandidate, hstr]
    try norm_num
    try simp
    try norm_num
  have hspanB : processSpanFallback 100 (some c10BlockBB) 1 12 (some c10LineBBox)
      c10SpanOkB = Except.ok (some c10GlyphB) := by
    simp [processSpanFallback, c10SpanOkB, c10GlyphB, hstr2, hfn, hrb,
      hflags, hsp, hc, hcenter, hdrop]
    try norm_num
    try simp
    try norm_num
  have hblank : processSpanFallback 100 (some c10BlockBB) 1 12 (some c10LineBBox)
      c10SpanBlank = Except.ok none := rfl
  have hloop : processSpansLoop 100 (some c10BlockBB) 1 12 (some c10LineBBox)
      [c10SpanBlank, c10SpanOkB] = Except.ok [c10GlyphB] := by
    simp only [processSpansLoop, hblank, hspanB]
  have hred : processLine 100 (some c10BlockBB) 1 12 (rawToProc c10LineOk)
      = processSpansLoop 100 (some c10BlockBB) 1 12 (some c10LineBBox)
        [c10SpanBlank, c10SpanOkB] := rfl
  have hline : processLine 100 (some c10BlockBB) 1 12 (rawToProc c10LineOk)
      = Except.ok [c10GlyphB] := hred.trans hloop
  have hred2 : processBlock 100 12 c10BlockOk
      = processLinesLoop 100 (some c10BlockBB) 1 12 [rawToProc c10LineOk] := rfl
  have hblockOk : processBlock 100 12 c10BlockOk = Except.ok [c10GlyphB] := by
    rw [hred2]
    simp only [processLinesLoop, hline, List.append_nil]
  have hmfsOk : pageMedianFontSize [c10BlockOk] = 12 := by
    simp only [pageMedianFontSize, c10BlockOk, c10LineOk, c10SpanBlank, c10SpanOkB]
    norm_num [medianUpper, sortQ, insertQ]
  have hpb : extractExtractableGlyphs c10PageOk
      = processBlocksLoop 100 (pageMedianFontSize [c10BlockOk]) [c10BlockOk] := rfl
  constructor
  · rw [hpb, hmfsOk]
    simp only [processBlocksLoop, hblockOk, List.append_nil]
  · rfl

end Pdf2Html
